/-
Verification of the cloudbase-init network-metadata normalization engine.

Shallow embedding of:
  * cloudbaseinit/metadata/services/basenetworkservice.py
      (NetworkDetails, NetworkDetailsBuilder: _get_field, _get_fields,
       _on_mac_not_found, _digest_interface, _digest_links, _digest_networks,
       get_network_details)
  * cloudbaseinit/metadata/services/httpservice.py
      (_NetworkDetailsBuilder: _digest, _digest_raw_networks)
  * cloudbaseinit/plugins/common/networkconfig.py
      (NetworkConfigPlugin.execute and its helpers)

Python's dynamically-typed records are embedded as association lists over a
small universe of values (`Value`); Python exceptions are embedded as an
explicit error type (`PyErr`) threaded through `Except`; the impure
uuid-producing default is embedded as a counter threaded through the field
resolver.  Python dict semantics (insertion order preserved, update-in-place
keeps the original key position) are mirrored by `insertKV`.
-/
import Mathlib

namespace CloudbaseInit

/-- The universe of raw-record values that flow through the builder.
`pair` embeds the Python 2-tuple `(field_name, value)` that `_get_field`
returns; `vnone` embeds Python's `None`. -/
inductive Value where
  | str (s : String)
  | int (n : Int)
  | vlist (xs : List String)
  | pair (fst : String) (snd : Value)
  | vnone
  deriving DecidableEq, Repr

/-- Python exceptions relevant to this code, by class.
`netDetails` embeds `NetworkDetailsError`; the remaining constructors embed
the builtin exception classes the code can raise.  Only `netDetails` is ever
caught by the code under verification. -/
inductive PyErr where
  | netDetails (msg : String)
  | keyError (key : String)
  | typeError (msg : String)
  | attributeError (msg : String)
  | valueError (msg : String)
  deriving DecidableEq, Repr

/-- `True` exactly on the exception class caught by
`except service_base.NetworkDetailsError`. -/
def PyErr.isNetDetails : PyErr → Bool
  | .netDetails _ => true
  | _ => false

/-- A raw record: a Python dict with string keys, in insertion order. -/
abbrev RawData := List (String × Value)

/-- `d[k]`-style lookup (first binding wins; `insertKV` keeps keys unique). -/
def lookupKV {κ ν : Type} [DecidableEq κ] : List (κ × ν) → κ → Option ν
  | [], _ => none
  | (k', v) :: rest, k => if k' = k then some v else lookupKV rest k

/-- `d[k] = v`: replace in place when the key exists (Python dicts keep the
original position of an updated key), append otherwise. -/
def insertKV {κ ν : Type} [DecidableEq κ] : List (κ × ν) → κ → ν → List (κ × ν)
  | [], k, v => [(k, v)]
  | (k', v') :: rest, k, v =>
    if k' = k then (k, v) :: rest else (k', v') :: insertKV rest k v

/-- Python truthiness of a `Value` (`if netmask:`, …). -/
def pyTruthy : Value → Bool
  | .str s => s ≠ ""
  | .int n => n ≠ 0
  | .vlist xs => xs ≠ []
  | .pair _ _ => true
  | .vnone => false

/-- Python `str()` rendering used by `"%s/%s" % (ip_address, netmask)`. -/
def pyStr : Value → String
  | .str s => s
  | .int n => toString n
  | .vlist xs => toString xs
  | .pair f v => f ++ "," ++ pyStr v
  | .vnone => "None"

/-- Python `==` between embedded values: structural within one class,
`False` across classes (a `str` never equals a `tuple`). -/
def pyEq : Value → Value → Bool
  | .str a, .str b => a = b
  | .int a, .int b => a = b
  | .vlist a, .vlist b => a = b
  | .pair a x, .pair b y => a = b && pyEq x y
  | .vnone, .vnone => true
  | _, _ => false

-- Canonical field names (module-level constants of basenetworkservice.py).
def ASSIGNED_TO : String := "assigned_to"
def BOND_LINKS : String := "bond_links"
def BOND_MODE : String := "bond_mode"
def BROADCAST : String := "broadcast"
def DNS : String := "dns_nameservers"
def GATEWAY : String := "gateway"
def ID : String := "id"
def IP_ADDRESS : String := "ip_address"
def NAME : String := "name"
def MAC_ADDRESS : String := "mac_address"
def MTU : String := "mtu"
def NETMASK : String := "netmask"
def TYPE : String := "type"
def VERSION : String := "version"
def VLAN_ID : String := "vlan_id"
def VLAN_LINK : String := "vlan_link"
def PHY : String := "phy"
def BOND : String := "bond"

/-- A field default: either a plain value or a zero-argument producer
(`six.callable(field.default)` distinguishes the two).
`Modelled from the spec:` the only producer used is
`lambda: str(uuid.uuid1())`; `uuid.uuid1` (Python stdlib, outside src/)
yields a fresh distinct token on every invocation, which is modelled by an
integer counter threaded through the resolver — only freshness, not the
token's text, matters to any claim. -/
inductive FieldDefault where
  | const (v : Value)
  | producer

/-- The generator state backing the producer default. -/
abbrev Gen := Nat

/-- The token produced by the `n`-th producer invocation. -/
def genValue (g : Gen) : Value := .int (Int.ofNat g)

/-- `NetworkDetailsBuilder._Field`: meta information about one field.
`alias` flattens Python's `None | str | list` into a list of alternative
names; `on_error` is the optional recovery hook called with
`(raw_data, data)` and returning a truthy/falsy verdict (the hook may write
into the partial result, so it returns the updated partial record too). -/
structure Field where
  name : String
  falias : List String := []
  fdefault : FieldDefault := .const .vnone
  required : Bool := false
  on_error : Option (RawData → RawData → Bool × RawData) := none

/-- `NetworkDetailsBuilder._get_field`: find the required information in the
raw data.  Checks the canonical name first, then each alias; a missing
non-required field takes the default (invoking a producer default fresh,
advancing the generator); a missing required field raises
`NetworkDetailsError`. -/
def get_field (field : Field) (raw_data : RawData) (g : Gen) :
    Except PyErr (String × Value) × Gen :=
  match (field.name :: field.falias).findSome? (fun a => lookupKV raw_data a) with
  | some value => (.ok (field.name, value), g)
  | none =>
    if field.required then
      (.error (.netDetails ("The required field " ++ field.name ++ " is missing.")), g)
    else
      match field.fdefault with
      | .producer => (.ok (field.name, genValue g), g + 1)
      | .const v => (.ok (field.name, v), g)

/-- `NetworkDetailsBuilder._get_fields`: resolve every field of a raw record.
A `NetworkDetailsError` from `_get_field` is caught; if the field has a
truthy `on_error` hook resolution continues with the partial record the hook
updated, otherwise the whole record is rejected (`return` → `none`).  The
rejection itself never escapes as an exception. -/
def get_fields (fields : List Field) (raw_data : RawData) (g : Gen) :
    Option RawData × Gen :=
  go fields [] g
where
  go : List Field → RawData → Gen → Option RawData × Gen
    | [], data, g => (some data, g)
    | field :: rest, data, g =>
      match get_field field raw_data g with
      | (.ok (field_name, field_value), g') =>
        go rest (insertKV data field_name field_value) g'
      | (.error _, g') =>
        match field.on_error with
        | some hook =>
          let (ok, data') := hook raw_data data
          if ok then go rest data' g' else (none, g')
        | none => (none, g')

/-- `NetworkDetailsBuilder._on_mac_not_found`: recovery hook for a link
record with no MAC address.  `name_field` is `self._link[NAME]` at call
time and `network_adapters` is the osutils enumeration of
`(adapter_name, mac_address)` pairs (an external collaborator).
Note the faithful detail: the code binds `name` to the whole
`(field_name, value)` 2-tuple returned by `_get_field` and compares each
adapter name against that tuple (`addapter_name == name`), which in Python
is a `str == tuple` comparison. -/
def on_mac_not_found (name_field : Field) (network_adapters : List (String × String))
    (raw_data : RawData) (output : RawData) : Bool × RawData :=
  -- `self._link[NAME]` is a required field, so `_get_field` never consults
  -- the producer default here; the generator argument is immaterial.
  match (get_field name_field raw_data 0).1 with
  | .error _ => (false, output)
  | .ok name =>
    match network_adapters.find?
        (fun p => pyEq (.str p.1) (.pair name.1 name.2)) with
    | some p => (true, insertKV output MAC_ADDRESS (.str p.2))
    | none => (false, output)

/-! ## The IP-interface collaborator

`_digest_interface` delegates to the Python stdlib `ipaddress.ip_interface`
(outside src/).  `Modelled from the spec:` "standard IP-interface
arithmetic" — textual IPv4/IPv6 interface parsing (dotted quad with a
prefix length or a dotted netmask; colon-hex with optional `::` compression
and a prefix length), the derived netmask/broadcast arithmetic, and the
canonical rendering Python's `str()` produces (compressed lowercase IPv6,
dotted-quad IPv4). -/

/-- Decimal digit. -/
def decDigit? (c : Char) : Option Nat :=
  if '0' ≤ c ∧ c ≤ '9' then some (c.toNat - 48) else none

def parseDecCore : List Char → Nat → Option Nat
  | [], acc => some acc
  | c :: cs, acc =>
    match decDigit? c with
    | some d => parseDecCore cs (acc * 10 + d)
    | none => none

/-- Parse a non-empty all-decimal string. -/
def parseDec (cs : List Char) : Option Nat :=
  if cs = [] then none else parseDecCore cs 0

/-- Value of a hexadecimal digit (either case); 16 marks a non-digit. -/
def hexVal (c : Char) : Nat :=
  if c = '0' then 0 else if c = '1' then 1
  else if c = '2' then 2 else if c = '3' then 3
  else if c = '4' then 4 else if c = '5' then 5
  else if c = '6' then 6 else if c = '7' then 7
  else if c = '8' then 8 else if c = '9' then 9
  else if c = 'a' ∨ c = 'A' then 10 else if c = 'b' ∨ c = 'B' then 11
  else if c = 'c' ∨ c = 'C' then 12 else if c = 'd' ∨ c = 'D' then 13
  else if c = 'e' ∨ c = 'E' then 14 else if c = 'f' ∨ c = 'F' then 15
  else 16

/-- Hexadecimal digit (either case). -/
def hexDigit? (c : Char) : Option Nat :=
  if hexVal c < 16 then some (hexVal c) else none

def parseHexCore : List Char → Nat → Option Nat
  | [], acc => some acc
  | c :: cs, acc =>
    match hexDigit? c with
    | some d => parseHexCore cs (acc * 16 + d)
    | none => none

/-- One IPv6 group: one to four hex digits. -/
def parseGroup (cs : List Char) : Option Nat :=
  if cs = [] ∨ 4 < cs.length then none else parseHexCore cs 0

def splitOnChar (sep : Char) (cs : List Char) : List (List Char) :=
  go cs []
where
  go : List Char → List Char → List (List Char)
    | [], acc => [acc.reverse]
    | c :: rest, acc =>
      if c = sep then acc.reverse :: go rest [] else go rest (c :: acc)

/-- Split at the first `::`, when present. -/
def findDoubleColon : List Char → Option (List Char × List Char)
  | ':' :: ':' :: rest => some ([], rest)
  | c :: rest => (findDoubleColon rest).map (fun p => (c :: p.1, p.2))
  | [] => none

/-- Horner assembly of digit groups in base `B`. -/
def assembleBase (B : Nat) : List Nat → Nat → Nat
  | [], acc => acc
  | g :: gs, acc => assembleBase B gs (acc * B + g)

/-- All-or-nothing map over `Option` (first-order `mapM`). -/
def mapO {α β : Type} (f : α → Option β) : List α → Option (List β)
  | [] => some []
  | a :: as =>
    match f a, mapO f as with
    | some b, some bs => some (b :: bs)
    | _, _ => none

/-- Dotted-quad IPv4 address. -/
def parseIPv4 (cs : List Char) : Option Nat :=
  match mapO parseDec (splitOnChar '.' cs) with
  | some parts =>
    if parts.length = 4 ∧ parts.all (· ≤ 255) then
      some (assembleBase 256 parts 0)
    else none
  | none => none

/-- Colon-hex IPv6 address, full form or with one `::` compression. -/
def parseIPv6 (cs : List Char) : Option Nat :=
  match findDoubleColon cs with
  | none =>
    match mapO parseGroup (splitOnChar ':' cs) with
    | some gs => if gs.length = 8 then some (assembleBase 65536 gs 0) else none
    | none => none
  | some (l, r) =>
    match v6Side l, v6Side r with
    | some lg, some rg =>
      if lg.length + rg.length ≤ 7 then
        some (assembleBase 65536
          (lg ++ List.replicate (8 - lg.length - rg.length) 0 ++ rg) 0)
      else none
    | _, _ => none
where
  v6Side (s : List Char) : Option (List Nat) :=
    if s = [] then some [] else mapO parseGroup (splitOnChar ':' s)

/-- Prefix length of a contiguous dotted IPv4 netmask. -/
def netmaskPrefix4 (m : Nat) : Option Nat :=
  (List.range 33).find? (fun p => m = 2 ^ 32 - 2 ^ (32 - p))

/-- Render a number below 1000 in decimal. -/
def fmtDec (n : Nat) : List Char :=
  if n < 10 then [Nat.digitChar n]
  else if n < 100 then [Nat.digitChar (n / 10), Nat.digitChar (n % 10)]
  else [Nat.digitChar (n / 100), Nat.digitChar (n / 10 % 10), Nat.digitChar (n % 10)]

/-- Canonical dotted-quad rendering of an IPv4 address. -/
def fmtIPv4 (n : Nat) : String :=
  String.mk (fmtDec (n / 2 ^ 24 % 256) ++ '.' :: fmtDec (n / 2 ^ 16 % 256) ++
    '.' :: fmtDec (n / 2 ^ 8 % 256) ++ '.' :: fmtDec (n % 256))

/-- Render one IPv6 group in lowercase hex without leading zeros. -/
def fmtHex (n : Nat) : List Char :=
  if n < 16 then [Nat.digitChar n]
  else if n < 256 then [Nat.digitChar (n / 16), Nat.digitChar (n % 16)]
  else if n < 4096 then
    [Nat.digitChar (n / 256), Nat.digitChar (n / 16 % 16), Nat.digitChar (n % 16)]
  else
    [Nat.digitChar (n / 4096), Nat.digitChar (n / 256 % 16),
     Nat.digitChar (n / 16 % 16), Nat.digitChar (n % 16)]

/-- The eight 16-bit groups of an IPv6 address, most significant first. -/
def v6Groups (n : Nat) : List Nat :=
  [n / 2 ^ 112 % 65536, n / 2 ^ 96 % 65536, n / 2 ^ 80 % 65536,
   n / 2 ^ 64 % 65536, n / 2 ^ 48 % 65536, n / 2 ^ 32 % 65536,
   n / 2 ^ 16 % 65536, n % 65536]

/-- Close the current zero run and keep the better of it and the best so
far: only runs of two or more groups qualify, and an earlier run wins ties
(Python replaces the leftmost longest run). -/
def mergeRun (cur best : Option (Nat × Nat)) : Option (Nat × Nat) :=
  match cur, best with
  | none, b => b
  | some (s, l), none => if 2 ≤ l then some (s, l) else none
  | some (s, l), some (bs, bl) =>
    if 2 ≤ l ∧ bl < l then some (s, l) else some (bs, bl)

/-- Leftmost longest run (start, length) of zero groups, length ≥ 2. -/
def bestZeroRun (gs : List Nat) : Option (Nat × Nat) :=
  go gs 0 none none
where
  go : List Nat → Nat → Option (Nat × Nat) → Option (Nat × Nat) → Option (Nat × Nat)
    | [], _, cur, best => mergeRun cur best
    | 0 :: rest, i, none, best => go rest (i + 1) (some (i, 1)) best
    | 0 :: rest, i, some (s, l), best => go rest (i + 1) (some (s, l + 1)) best
    | _ :: rest, i, cur, best => go rest (i + 1) none (mergeRun cur best)

def joinColon (gs : List Nat) : List Char :=
  List.intercalate [':'] (gs.map fmtHex)

/-- Canonical compressed rendering of an IPv6 address. -/
def fmtIPv6 (n : Nat) : String :=
  let gs := v6Groups n
  match bestZeroRun gs with
  | none => String.mk (joinColon gs)
  | some (s, l) =>
    String.mk (joinColon (gs.take s) ++ ':' :: ':' :: joinColon (gs.drop (s + l)))

/-- `ipaddress.ip_interface` on text: returns `(version, address, prefixlen)`.
IPv4 is tried first, as Python does; the part after `/` may be a decimal
prefix length, or (IPv4 only) a dotted contiguous netmask. -/
def ip_interface (s : String) : Option (Nat × Nat × Nat) :=
  match splitOnChar '/' s.data with
  | [a] =>
    match parseIPv4 a with
    | some v => some (4, v, 32)
    | none =>
      match parseIPv6 a with
      | some v => some (6, v, 128)
      | none => none
  | [a, m] =>
    match parseIPv4 a with
    | some v =>
      match parseDec m with
      | some p => if p ≤ 32 then some (4, v, p) else none
      | none =>
        match parseIPv4 m with
        | some mv => (netmaskPrefix4 mv).map (fun p => (4, v, p))
        | none => none
    | none =>
      match parseIPv6 a with
      | some v =>
        match parseDec m with
        | some p => if p ≤ 128 then some (6, v, p) else none
        | none => none
      | none => none
  | _ => none

/-- The four derived fields `_digest_interface` returns. -/
structure IfaceInfo where
  broadcast : String
  netmask : String
  ip_address : String
  version : Int
  deriving DecidableEq, Repr

/-- The four derived values for a parsed interface `(version, address,
prefixlen)`: the broadcast of the network (`network_address | hostmask`),
the concrete netmask, the normalized address, and the version. -/
def ifaceOf (ver addr pre : Nat) : IfaceInfo :=
  let bits := if ver = 4 then 32 else 128
  let host := bits - pre
  let mask := 2 ^ bits - 2 ^ host
  let network := addr &&& mask
  let bcast := network ||| (2 ^ host - 1)
  let fmt := if ver = 4 then fmtIPv4 else fmtIPv6
  ⟨fmt bcast, fmt mask, fmt addr, Int.ofNat ver⟩

/-- `NetworkDetailsBuilder._digest_interface`: join the address and the
optional netmask into `"ip/netmask"`, parse the interface, and return the
broadcast of its network, the concrete netmask, the normalized address and
the IP version.  A parse failure embeds the `ValueError` that
`ipaddress.ip_interface` raises (as `none`). -/
def digest_interface (ip_address : String) (netmask : Option String) : Option IfaceInfo :=
  let combined :=
    match netmask with
    | some m => if m = "" then ip_address else ip_address ++ "/" ++ m
    | none => ip_address
  match ip_interface combined with
  | none => none
  | some (ver, addr, pre) => some (ifaceOf ver addr pre)

/-- `_digest_interface` as called on raw dict values: `if netmask:` is
Python truthiness and `"%s/%s"` renders with `str()`. -/
def digest_interfaceV (ip_address netmask : Value) : Option IfaceInfo :=
  digest_interface (pyStr ip_address)
    (if pyTruthy netmask then some (pyStr netmask) else none)

/-- The combined string `_digest_interface` hands to
`ipaddress.ip_interface` (`"%s/%s" % (ip_address, netmask)` when the
netmask is truthy). -/
def combineIface (s : String) (m : Option String) : String :=
  match m with
  | some mm => if mm = "" then s else s ++ "/" ++ mm
  | none => s

/-- Address width of an IP version. -/
def bitsOf (ver : Nat) : Nat := if ver = 4 then 32 else 128

/-- Canonical address rendering of an IP version. -/
def fmtOf (ver : Nat) : Nat → String := if ver = 4 then fmtIPv4 else fmtIPv6

/-! ## Entities and the digest passes of the abstract builder -/

def linkFieldNames : List String :=
  [ID, NAME, TYPE, MAC_ADDRESS, MTU, BOND_LINKS, BOND_MODE, VLAN_ID, VLAN_LINK]

def networkFieldNames : List String :=
  [ID, IP_ADDRESS, VERSION, NETMASK, GATEWAY, BROADCAST, DNS, ASSIGNED_TO]

/-- The `Link` namedtuple. -/
structure Link where
  id : Value
  name : Value
  type : Value
  mac_address : Value
  mtu : Value
  bond_links : Value
  bond_mode : Value
  vlan_id : Value
  vlan_link : Value
  deriving DecidableEq, Repr

/-- The `Network` namedtuple. -/
structure Network where
  id : Value
  ip_address : Value
  version : Value
  netmask : Value
  gateway : Value
  broadcast : Value
  dns_nameservers : Value
  assigned_to : Value
  deriving DecidableEq, Repr

/-- `self._Link(**raw_link)`: keyword construction of a namedtuple with no
defaults succeeds exactly when the dict's keys are precisely the tuple's
fields — a missing field or an unexpected leftover key raises `TypeError`
(embedded as `none`). -/
def mkLink (raw : RawData) : Option Link :=
  if raw.all (fun kv => kv.1 ∈ linkFieldNames) then
    match lookupKV raw ID, lookupKV raw NAME, lookupKV raw TYPE,
        lookupKV raw MAC_ADDRESS, lookupKV raw MTU, lookupKV raw BOND_LINKS,
        lookupKV raw BOND_MODE, lookupKV raw VLAN_ID, lookupKV raw VLAN_LINK with
    | some a, some b, some c, some d, some e, some f, some g, some h, some i =>
      some ⟨a, b, c, d, e, f, g, h, i⟩
    | _, _, _, _, _, _, _, _, _ => none
  else none

/-- `self._Network(**raw_network)`, same construction contract. -/
def mkNetwork (raw : RawData) : Option Network :=
  if raw.all (fun kv => kv.1 ∈ networkFieldNames) then
    match lookupKV raw ID, lookupKV raw IP_ADDRESS, lookupKV raw VERSION,
        lookupKV raw NETMASK, lookupKV raw GATEWAY, lookupKV raw BROADCAST,
        lookupKV raw DNS, lookupKV raw ASSIGNED_TO with
    | some a, some b, some c, some d, some e, some f, some g, some h =>
      some ⟨a, b, c, d, e, f, g, h⟩
    | _, _, _, _, _, _, _, _ => none
  else none

/-- The per-record head of `_digest_links`'s loop body:
`raw_link.update(self._digest_interface(raw_link[IP_ADDRESS],
raw_link[NETMASK]))`.  A missing key raises `KeyError`; an unparsable
address raises `ValueError` out of `ipaddress`; the returned dict adds the
`broadcast`, `netmask`, `ip_address` and `version` entries in the order of
the dict literal `_digest_interface` returns. -/
def ifaceStep (raw : RawData) : Except PyErr RawData :=
  match lookupKV raw IP_ADDRESS with
  | none => .error (.keyError IP_ADDRESS)
  | some ip =>
    match lookupKV raw NETMASK with
    | none => .error (.keyError NETMASK)
    | some nm =>
      match digest_interfaceV ip nm with
      | none => .error (.valueError "does not appear to be an IPv4 or IPv6 interface")
      | some info =>
        .ok (insertKV (insertKV (insertKV (insertKV raw
          BROADCAST (.str info.broadcast))
          NETMASK (.str info.netmask))
          IP_ADDRESS (.str info.ip_address))
          VERSION (.int info.version))

/-- `NetworkDetailsBuilder._digest_links`: process the raw link records in
order; an assembly failure is re-raised as `NetworkDetailsError` and aborts
the whole pass, otherwise the link is indexed under `link.id`. -/
def digest_links : List RawData → List (Value × Link) → Except PyErr (List (Value × Link))
  | [], links => .ok links
  | raw :: rest, links =>
    match ifaceStep raw with
    | .error e => .error e
    | .ok raw' =>
      match mkLink raw' with
      | some link => digest_links rest (insertKV links link.id link)
      | none => .error (.netDetails "Invalid raw link provied.")

def digest_linksT (raws : List RawData) : Except PyErr (List (Value × Link)) :=
  digest_links raws []

/-- `references.setdefault(network.assigned_to, []).append(network.id)`. -/
def appendRef : List (Value × List Value) → Value → Value → List (Value × List Value)
  | [], k, v => [(k, [v])]
  | (k', xs) :: rest, k, v =>
    if k' = k then (k', xs ++ [v]) :: rest else (k', xs) :: appendRef rest k v

/-- `NetworkDetailsBuilder._digest_networks`: process the raw network
records in order; an assembly failure is re-raised as
`NetworkDetailsError` and aborts the whole pass, otherwise the network is
indexed under `network.id` and its id appended to the reference bucket of
`network.assigned_to`. -/
def digest_networks : List RawData → List (Value × Network) → List (Value × List Value) →
    Except PyErr (List (Value × Network) × List (Value × List Value))
  | [], networks, references => .ok (networks, references)
  | raw :: rest, networks, references =>
    match mkNetwork raw with
    | some network =>
      digest_networks rest (insertKV networks network.id network)
        (appendRef references network.assigned_to network.id)
    | none => .error (.netDetails "Invalid raw network provied.")

def digest_networksT (raws : List RawData) :
    Except PyErr (List (Value × Network) × List (Value × List Value)) :=
  digest_networks raws [] []

/-! ## The `NetworkDetails` container -/

/-- A value stored in one of the three `NetworkDetails` mappings: a digested
`Link`, a digested `Network`, or a reference bucket of network ids. -/
inductive Entry where
  | link (l : Link)
  | network (n : Network)
  | ids (xs : List Value)
  deriving DecidableEq, Repr

/-- `NetworkDetails`: the three attributes, named as in the source
(sans the leading underscore). -/
structure NetworkDetails where
  assigned_to : List (Value × Entry)
  links : List (Value × Entry)
  networks : List (Value × Entry)
  deriving DecidableEq, Repr

/-- `NetworkDetails.__init__(self, raw_links, raw_networks, raw_references)`
exactly as the source assigns its attributes:
`self._assigned_to = raw_links`, `self._links = raw_networks`,
`self._networks = raw_references`. -/
def NetworkDetails.init (raw_links raw_networks raw_references : List (Value × Entry)) :
    NetworkDetails :=
  { assigned_to := raw_links, links := raw_networks, networks := raw_references }

/-- `get_link`: `return self._links.get(link_id)`. -/
def NetworkDetails.get_link (nd : NetworkDetails) (link_id : Value) : Option Entry :=
  lookupKV nd.links link_id

/-- `get_links`: `return self._links.keys()`. -/
def NetworkDetails.get_links (nd : NetworkDetails) : List Value :=
  nd.links.map (fun p => p.1)

/-- `get_network`: `return self._networks.get(network_id)`. -/
def NetworkDetails.get_network (nd : NetworkDetails) (network_id : Value) : Option Entry :=
  lookupKV nd.networks network_id

/-- `get_networks`: `return self._assigned_to.get(link_id)`. -/
def NetworkDetails.get_networks (nd : NetworkDetails) (link_id : Value) : Option Entry :=
  lookupKV nd.assigned_to link_id

/-- The two raw buffers of the abstract builder (`self._links`,
`self._networks`), holding whatever the subclass `_digest` deposits; the
base digest passes iterate them as raw link/network dicts. -/
structure BuilderState where
  links : List RawData
  networks : List RawData
  deriving DecidableEq, Repr

/-- `NetworkDetailsBuilder.get_network_details`: invoke the abstract
`_digest` hook exactly when one of the raw buffers is empty
(`if not self._links or not self._networks`), digest both buffers, and
wrap the three resulting mappings in a `NetworkDetails` via keyword call
`NetworkDetails(raw_links=links, raw_networks=networks,
raw_references=references)`.  The returned flag records whether `_digest`
was invoked. -/
def get_network_detailsB (digestFn : BuilderState → BuilderState) (st : BuilderState) :
    Except PyErr NetworkDetails × Bool :=
  let invoked := st.links.isEmpty || st.networks.isEmpty
  let st' := if invoked then digestFn st else st
  match digest_linksT st'.links with
  | .error e => (.error e, invoked)
  | .ok links =>
    match digest_networksT st'.networks with
    | .error e => (.error e, invoked)
    | .ok (networks, references) =>
      (.ok (NetworkDetails.init
        (links.map (fun p => (p.1, Entry.link p.2)))
        (networks.map (fun p => (p.1, Entry.network p.2)))
        (references.map (fun p => (p.1, Entry.ids p.2)))), invoked)

/-! ## The HTTP (OpenStack) builder: field tables and `_digest` -/

/-- `self._link[ID]` / `self._network[ID]`: optional, producer default
(`lambda: str(uuid.uuid1())`). -/
def idField : Field := { name := ID, fdefault := .producer }

/-- Base `self._link[NAME]`. -/
def baseNameField : Field := { name := NAME, required := true }

/-- HTTP override of `NAME`: alias `_NAME = "id"`. -/
def httpNameField : Field := { name := NAME, falias := [ID], required := true }

/-- HTTP override of `MAC_ADDRESS`: alias `"ethernet_mac_address"`, with the
`_on_mac_not_found` recovery hook (reading `self._link[NAME]`, the HTTP
name field, at call time). -/
def httpMacField (adapters : List (String × String)) : Field :=
  { name := MAC_ADDRESS, falias := ["ethernet_mac_address"], required := true,
    on_error := some (on_mac_not_found httpNameField adapters) }

def typeField : Field := { name := TYPE, fdefault := .const (.str PHY) }
def mtuField : Field := { name := MTU }
def bondLinksField : Field := { name := BOND_LINKS }
def bondModeField : Field := { name := BOND_MODE }
def vlanIdField : Field := { name := VLAN_ID }
def vlanLinkField : Field := { name := VLAN_LINK }

/-- `self._link.values()` of the HTTP builder, in dict insertion order (the
base `__init__` order; `update` keeps the positions of `NAME` and
`MAC_ADDRESS`). -/
def http_link_fields (adapters : List (String × String)) : List Field :=
  [idField, httpNameField, httpMacField adapters, typeField, mtuField,
   bondLinksField, bondModeField, vlanIdField, vlanLinkField]

def ipAddressField : Field := { name := IP_ADDRESS, required := true }

/-- HTTP override of `VERSION`: alias `_VERSION = "type"`, default 4 —
note `required=True`, so the default is unreachable. -/
def httpVersionField : Field :=
  { name := VERSION, falias := [TYPE], fdefault := .const (.int 4), required := true }

def netmaskField : Field := { name := NETMASK, required := true }
def gatewayField : Field := { name := GATEWAY, required := true }
def broadcastField : Field := { name := BROADCAST }
def dnsField : Field := { name := DNS, fdefault := .const (.vlist []) }

/-- HTTP override of `ASSIGNED_TO`: alias `_ASSIGNED_TO = "link"`. -/
def httpAssignedToField : Field :=
  { name := ASSIGNED_TO, falias := ["link"], required := true }

/-- `self._network.values()` of the HTTP builder, in dict insertion order. -/
def http_network_fields : List Field :=
  [idField, ipAddressField, httpVersionField, netmaskField, gatewayField,
   broadcastField, dnsField, httpAssignedToField]

/-- The parsed `network_data.json` dict: `_digest` reads
`network_data.get("links", [])` and `_digest_raw_networks` reads
`network_data.get("networks")` — the latter with no default, so an absent
key yields `None`. -/
structure HttpNetworkData where
  links : Option (List RawData)
  networks : Option (List RawData)

/-- `self._invalid_links` is dynamically typed: `__init__` sets it to a
list, `_digest` reassigns it to `self._links.keys()` — a `dict_keys` view
(Python 3). -/
inductive PyListOrKeys where
  | pylist (xs : List Value)
  | keysView (xs : List Value)
  deriving DecidableEq, Repr

/-- `self._invalid_links.pop(key, None)`: neither a list nor a `dict_keys`
view has a two-argument `pop` — a list raises `TypeError` (its `pop` takes
an index only), a `dict_keys` view has no `pop` attribute at all. -/
def popKeyDefault : PyListOrKeys → Value → Except PyErr PyListOrKeys
  | .pylist _, _ => .error (.typeError "pop expected at most 1 argument, got 2")
  | .keysView _, _ => .error (.attributeError "dict_keys object has no attribute pop")

/-- `dict.pop(key)` with no default: `KeyError` when absent. -/
def removeKey : List (Value × RawData) → Value → Except PyErr (List (Value × RawData))
  | [], k => .error (.keyError (pyStr k))
  | (k', v) :: rest, k =>
    if k' = k then .ok rest
    else
      match removeKey rest k with
      | .ok rest' => .ok ((k', v) :: rest')
      | .error e => .error e

/-- Phase 1 of `_NetworkDetailsBuilder._digest`: resolve every raw link; a
rejected record is logged and skipped; a resolved (truthy) record is read
back at `link[service_base.VERSION]` — a key `_get_fields` never produces
for the link field set, hence `KeyError` — before the ipv4/ipv6 rewrite and
the store under `link[ID]`. -/
def httpLinksPhase (adapters : List (String × String)) :
    List RawData → List (Value × RawData) → Gen →
    Except PyErr (List (Value × RawData) × Gen)
  | [], links, g => .ok (links, g)
  | raw :: rest, links, g =>
    match get_fields (http_link_fields adapters) raw g with
    | (some link, g') =>
      if link ≠ [] then
        match lookupKV link VERSION with
        | some v =>
          let link' := insertKV link VERSION
            (if pyEq v (.str "ipv4") then .int 4 else .int 6)
          match lookupKV link' ID with
          | some idv => httpLinksPhase adapters rest (insertKV links idv link') g'
          | none => .error (.keyError ID)
        | none => .error (.keyError VERSION)
      else httpLinksPhase adapters rest links g'
    | (none, g') => httpLinksPhase adapters rest links g'

/-- `_NetworkDetailsBuilder._digest_raw_networks`: resolve every raw
network; a rejected record is logged and skipped; for a resolved record the
code first runs `self._invalid_links.pop(network[ASSIGNED_TO], None)`.
The route handling further down (which would dereference the nonexistent
`self._route` / `self._routes` attributes) is unreachable: the `pop` call
raises first.  Note the resolved `network` dict is never stored anywhere —
`self._networks` is left untouched by this phase. -/
def httpNetworksPhase : List RawData → PyListOrKeys → Gen →
    Except PyErr (PyListOrKeys × Gen)
  | [], invalid, g => .ok (invalid, g)
  | raw :: rest, invalid, g =>
    match get_fields http_network_fields raw g with
    | (some network, g') =>
      if network ≠ [] then
        match lookupKV network ASSIGNED_TO with
        | some assigned =>
          match popKeyDefault invalid assigned with
          | .ok invalid' => httpNetworksPhase rest invalid' g'
          | .error e => .error e
        | none => .error (.keyError ASSIGNED_TO)
      else httpNetworksPhase rest invalid g'
    | (none, g') => httpNetworksPhase rest invalid g'

/-- The pruning loop of `_digest`: `while self._invalid_links:` pop one id
and drop it from `self._links`.  A `dict_keys` view has no zero-argument
`pop` either; a (Python 2) list pops from the tail. -/
def httpPrune : PyListOrKeys → List (Value × RawData) →
    Except PyErr (List (Value × RawData))
  | .keysView [], links => .ok links
  | .keysView (_ :: _), _ =>
    .error (.attributeError "dict_keys object has no attribute pop")
  | .pylist [], links => .ok links
  | .pylist (x :: xs), links =>
    let v := (x :: xs).getLast (by simp)
    match removeKey links v with
    | .ok links' => httpPrune (.pylist ((x :: xs).dropLast)) links'
    | .error e => .error e
termination_by inv _ => (match inv with | .pylist xs => xs.length | .keysView xs => xs.length)
decreasing_by simp [List.length_dropLast]

/-- `_NetworkDetailsBuilder._digest` of the HTTP service: digest the raw
links, snapshot `self._links.keys()` into `self._invalid_links`, digest the
raw networks, then prune.  Returns the final `self._links` buffer. -/
def http_digest (adapters : List (String × String)) (network_data : HttpNetworkData)
    (g : Gen) : Except PyErr (List (Value × RawData) × Gen) :=
  match httpLinksPhase adapters (network_data.links.getD []) [] g with
  | .error e => .error e
  | .ok (links, g1) =>
    let invalid := PyListOrKeys.keysView (links.map (fun p => p.1))
    match network_data.networks with
    | none => .error (.typeError "NoneType object is not iterable")
    | some rawNets =>
      match httpNetworksPhase rawNets invalid g1 with
      | .error e => .error e
      | .ok (invalid', g2) =>
        match httpPrune invalid' links with
        | .ok links' => .ok (links', g2)
        | .error e => .error e

/-! ## The static network-configuration plugin -/

/-- Python attribute access on whatever object a `NetworkDetails` lookup
returned: a `Link` or `Network` namedtuple exposes exactly its fields;
`None` (a missed lookup) and a reference bucket (a list) expose none of
these names — `AttributeError`. -/
def pyAttr (e : Option Entry) (attr : String) : Except PyErr Value :=
  match e with
  | some (.link l) =>
    match attr with
    | "id" => .ok l.id
    | "name" => .ok l.name
    | "type" => .ok l.type
    | "mac_address" => .ok l.mac_address
    | "mtu" => .ok l.mtu
    | "bond_links" => .ok l.bond_links
    | "bond_mode" => .ok l.bond_mode
    | "vlan_id" => .ok l.vlan_id
    | "vlan_link" => .ok l.vlan_link
    | _ => .error (.attributeError attr)
  | some (.network n) =>
    match attr with
    | "id" => .ok n.id
    | "ip_address" => .ok n.ip_address
    | "version" => .ok n.version
    | "netmask" => .ok n.netmask
    | "gateway" => .ok n.gateway
    | "broadcast" => .ok n.broadcast
    | "dns_nameservers" => .ok n.dns_nameservers
    | "assigned_to" => .ok n.assigned_to
    | _ => .error (.attributeError attr)
  | _ => .error (.attributeError attr)

/-- The osutils IPv4 primitive `set_static_network_config(mac, address,
netmask, broadcast, gateway, dnsnameservers) → reboot_required`, an
external collaborator that may also raise. -/
def Cfg4 : Type := Value → Value → Value → Value → Value → Value → Except PyErr Bool

/-- The osutils IPv6 primitive `set_static_network_config_v6`. -/
def Cfg6 : Type := Value → Value → Value → Value → Except PyErr Bool

/-- `NetworkConfigPlugin._set_static_network_config_v4`: keyword arguments
evaluated in call order, result forwarded. -/
def set_static_network_config_v4 (cfg4 : Cfg4) (link network : Option Entry) :
    Except PyErr Bool := do
  let mac ← pyAttr link "mac_address"
  let addr ← pyAttr network "ip_address"
  let nm ← pyAttr network "netmask"
  let bc ← pyAttr network "broadcast"
  let gw ← pyAttr network "gateway"
  let dns ← pyAttr network "dns_nameservers"
  cfg4 mac addr nm bc gw dns

/-- `NetworkConfigPlugin._set_static_network_config_v6`: invokes the
osutils primitive and then returns `False` regardless of its result. -/
def set_static_network_config_v6 (cfg6 : Cfg6) (link network : Option Entry) :
    Except PyErr Bool := do
  let mac ← pyAttr link "mac_address"
  let a6 ← pyAttr network "ip_address"
  let n6 ← pyAttr network "netmask"
  let g6 ← pyAttr network "gateway"
  let _ ← cfg6 mac a6 n6 g6
  pure false

/-- `NetworkConfigPlugin._configure_phy`: iterate
`get_networks(link.id)` (a `TypeError` if that lookup did not produce a
list), fetch each network, log its id (an eagerly evaluated attribute
access) and dispatch on `network.version == IPV4`, OR-ing the results. -/
def configure_phy (cfg4 : Cfg4) (cfg6 : Cfg6) (nd : NetworkDetails)
    (link : Option Entry) : Except PyErr Bool :=
  match pyAttr link "id" with
  | .error e => .error e
  | .ok lid =>
    match nd.get_networks lid with
    | some (.ids networkIds) => go networkIds false
    | some (.link _) => .error (.typeError "object is not iterable")
    | some (.network _) => .error (.typeError "object is not iterable")
    | none => .error (.typeError "NoneType object is not iterable")
where
  go : List Value → Bool → Except PyErr Bool
    | [], response => .ok response
    | nid :: rest, response =>
      let network := nd.get_network nid
      match pyAttr network "id" with
      | .error e => .error e
      | .ok _ =>
        match pyAttr network "version" with
        | .error e => .error e
        | .ok ver =>
          match
            (if pyEq ver (.int 4) then set_static_network_config_v4 cfg4 link network
             else set_static_network_config_v6 cfg6 link network) with
          | .ok r => go rest (response || r)
          | .error e => .error e

/-- `NetworkConfigPlugin._configure_interface`: log the link's name and MAC
(eager attribute accesses), dispatch `phy` links, and raise
`NetworkDetailsError` for every other interface type. -/
def configure_interface (cfg4 : Cfg4) (cfg6 : Cfg6) (nd : NetworkDetails)
    (link : Option Entry) : Except PyErr Bool :=
  match pyAttr link "name" with
  | .error e => .error e
  | .ok _ =>
    match pyAttr link "mac_address" with
    | .error e => .error e
    | .ok _ =>
      match pyAttr link "type" with
      | .error e => .error e
      | .ok ty =>
        if pyEq ty (.str PHY) then configure_phy cfg4 cfg6 nd link
        else .error (.netDetails "The interface type is not supported.")

/-- The outcome `NetworkConfigPlugin.execute`'s loop observes for one link
id: `_configure_interface(get_link(link_id))`. -/
def linkOutcome (cfg4 : Cfg4) (cfg6 : Cfg6) (nd : NetworkDetails) (lid : Value) :
    Except PyErr Bool :=
  configure_interface cfg4 cfg6 nd (nd.get_link lid)

/-- The loop of `NetworkConfigPlugin.execute` with its two accumulators:
`reboot_required |= _configure_interface(link)` on success (which also sets
`configured = True` via the `else` clause); a `NetworkDetailsError` is
caught and logged — the log call eagerly evaluates `link.mac_address`,
which may itself raise — and the loop continues; any other exception
propagates. -/
def executeAux (cfg4 : Cfg4) (cfg6 : Cfg6) (nd : NetworkDetails) :
    Except PyErr (Bool × Bool) :=
  go nd.get_links false false
where
  go : List Value → Bool → Bool → Except PyErr (Bool × Bool)
    | [], reboot, configured => .ok (reboot, configured)
    | lid :: rest, reboot, configured =>
      let link := nd.get_link lid
      match configure_interface cfg4 cfg6 nd link with
      | .ok r => go rest (reboot || r) true
      | .error (.netDetails _) =>
        match pyAttr link "mac_address" with
        | .ok _ => go rest reboot configured
        | .error e => .error e
      | .error e => .error e

/-- `PLUGIN_EXECUTION_DONE`. -/
inductive ExecStatus where
  | done
  deriving DecidableEq, Repr

/-- `NetworkConfigPlugin.execute`: absent network details is "nothing to
do" (`(DONE, False)`); otherwise run the loop and return
`(DONE, reboot_required)`.  (The `isinstance` guard raising
`CloudbaseInitException` for non-`NetworkDetails` inputs is enforced by the
embedding's types.) -/
def execute (cfg4 : Cfg4) (cfg6 : Cfg6) (network_details : Option NetworkDetails) :
    Except PyErr (ExecStatus × Bool) :=
  match network_details with
  | none => .ok (.done, false)
  | some nd =>
    match executeAux cfg4 cfg6 nd with
    | .ok (reboot, _) => .ok (.done, reboot)
    | .error e => .error e

/-! ## Specification-side helpers used by the theorems -/

/-- `true` on `.ok`. -/
def exOk {α : Type} : Except PyErr α → Bool
  | .ok _ => true
  | .error _ => false

/-- A raw link record whose interface digestion succeeds but whose updated
dict cannot be assembled into a `Link` (the `TypeError` →
`NetworkDetailsError` path of `_digest_links`). -/
def badLink (raw : RawData) : Bool :=
  match ifaceStep raw with
  | .ok updated => (mkLink updated).isNone
  | .error _ => false

/-- The network ids a list of digested networks assigns to link id `l`, in
digestion order (the spec-side description of a reference bucket). -/
def assignedIds (nets : List Network) (l : Value) : List Value :=
  (nets.filter (fun n => n.assigned_to = l)).map (fun n => n.id)

/-- How a reference bucket grows across a digestion run: the bucket already
in the accumulator (if any) followed by the newly assigned ids. -/
def refJoin (o : Option (List Value)) (ids : List Value) : Option (List Value) :=
  match o, ids with
  | none, [] => none
  | none, ids => some ids
  | some b, ids => some (b ++ ids)

-- Concrete inputs used by the per-claim evaluation theorems.

/-- A fully explicit raw network record (all eight `Network` keys), id
`"n1"`, assigned to link id `"l1"`. -/
def rawNetN1L1 : RawData :=
  [(ID, .str "n1"), (IP_ADDRESS, .str "10.0.0.5"), (VERSION, .int 4),
   (NETMASK, .str "255.255.255.0"), (GATEWAY, .str "10.0.0.1"),
   (BROADCAST, .str "10.0.0.255"), (DNS, .vlist []), (ASSIGNED_TO, .str "l1")]

/-- Same id `"n1"` but assigned to `"l2"`. -/
def rawNetN1L2 : RawData :=
  [(ID, .str "n1"), (IP_ADDRESS, .str "10.0.0.5"), (VERSION, .int 4),
   (NETMASK, .str "255.255.255.0"), (GATEWAY, .str "10.0.0.1"),
   (BROADCAST, .str "10.0.0.255"), (DNS, .vlist []), (ASSIGNED_TO, .str "l2")]

/-- Distinct id `"n2"`, assigned to `"l2"`. -/
def rawNetN2L2 : RawData :=
  [(ID, .str "n2"), (IP_ADDRESS, .str "10.0.0.6"), (VERSION, .int 4),
   (NETMASK, .str "255.255.255.0"), (GATEWAY, .str "10.0.0.1"),
   (BROADCAST, .str "10.0.0.255"), (DNS, .vlist []), (ASSIGNED_TO, .str "l2")]

/-- A raw link record carrying only the address/netmask keys the interface
digestion needs; the digestion update then leaves keys (`ip_address`, …)
that the `Link` constructor rejects. -/
def c6RawLink : RawData :=
  [(IP_ADDRESS, .str "10.0.0.5"), (NETMASK, .str "255.255.255.0")]

/-- A raw network record missing most required `Network` keys. -/
def c6RawNet : RawData := [(ID, .str "n1")]

/-- The `Network` that `rawNetN1L1` digests into. -/
def netN1L1 : Network :=
  ⟨.str "n1", .str "10.0.0.5", .int 4, .str "255.255.255.0",
   .str "10.0.0.1", .str "10.0.0.255", .vlist [], .str "l1"⟩

/-- The `Network` that `rawNetN2L2` digests into. -/
def netN2L2 : Network :=
  ⟨.str "n2", .str "10.0.0.6", .int 4, .str "255.255.255.0",
   .str "10.0.0.1", .str "10.0.0.255", .vlist [], .str "l2"⟩

/-- Builder state with an empty raw link buffer and one complete raw
network record. -/
def stC1 : BuilderState := { links := [], networks := [rawNetN1L1] }

/-- Builder state with both raw buffers populated. -/
def stC8 : BuilderState := { links := [c6RawLink], networks := [rawNetN1L1] }

/-- The snapshot `get_network_details` builds from `stC1`. -/
def ndC1 : NetworkDetails :=
  NetworkDetails.init [] [(.str "n1", .network netN1L1)]
    [(.str "l1", .ids [.str "n1"])]

/-- A raw OpenStack network record carrying every required provider key
(`type` and `link` are the HTTP aliases of `version` and `assigned_to`),
referencing link id `"eth0"`. -/
def httpNetC3 : RawData :=
  [(IP_ADDRESS, .str "10.0.0.5"), (NETMASK, .str "255.255.255.0"),
   (GATEWAY, .str "10.0.0.1"), (TYPE, .str "ipv4"), ("link", .str "eth0")]

/-- A raw OpenStack link record (`id` doubles as the name alias,
`ethernet_mac_address` is the MAC alias), which resolves successfully. -/
def httpLinkC3 : RawData :=
  [(ID, .str "eth0"), ("ethernet_mac_address", .str "aa:bb:cc:dd:ee:01")]

/-- `true` when a per-link outcome is a success or exactly the exception
class `execute`'s `except` clause catches. -/
def okOrNetDetails : Except PyErr Bool → Bool
  | .ok _ => true
  | .error e => e.isNetDetails

def exToOption {α : Type} : Except PyErr α → Option α
  | .ok a => some a
  | .error _ => none

/-- The results of the links that configure successfully, in link order
(the spec-side description of what `execute`'s loop accumulates). -/
def successes (cfg4 : Cfg4) (cfg6 : Cfg6) (nd : NetworkDetails) : List Bool :=
  nd.get_links.filterMap (fun lid => exToOption (linkOutcome cfg4 cfg6 nd lid))

def orAll (bs : List Bool) : Bool := bs.foldl (fun a b => a || b) false

def isLinkEntry : Option Entry → Bool
  | some (.link _) => true
  | _ => false

/-- A `phy` link with the given id, name and MAC. -/
def linkPhy (lid name mac : String) : Link :=
  ⟨.str lid, .str name, .str PHY, .str mac, .vnone, .vnone, .vnone, .vnone, .vnone⟩

/-- A `bond` link (unsupported by `_configure_interface`). -/
def linkBond (lid name mac : String) : Link :=
  ⟨.str lid, .str name, .str BOND, .str mac, .vnone, .vnone, .vnone, .vnone, .vnone⟩

/-- An IPv4 `Network` with the given id, assigned to the given link id. -/
def netV4 (nid assigned : String) : Network :=
  ⟨.str nid, .str "10.0.0.5", .int 4, .str "255.255.255.0",
   .str "10.0.0.1", .str "10.0.0.255", .vlist [], .str assigned⟩

/-- A snapshot with one `phy` link `"l1"` carrying one IPv4 network. -/
def ndOnePhy : NetworkDetails :=
  { assigned_to := [(.str "l1", .ids [.str "n1"])],
    links := [(.str "l1", .link (linkPhy "l1" "eth0" "aa:bb:cc:dd:ee:01"))],
    networks := [(.str "n1", .network (netV4 "n1" "l1"))] }

/-- The spec's partial-configuration scenario: three links — `phy`,
`bond` (unsupported), `phy` — the two `phy` ones each carrying one IPv4
network. -/
def ndThreeLinks : NetworkDetails :=
  { assigned_to := [(.str "l1", .ids [.str "n1"]), (.str "l3", .ids [.str "n3"])],
    links := [(.str "l1", .link (linkPhy "l1" "eth0" "aa:bb:cc:dd:ee:01")),
              (.str "l2", .link (linkBond "l2" "bond0" "aa:bb:cc:dd:ee:02")),
              (.str "l3", .link (linkPhy "l3" "eth2" "aa:bb:cc:dd:ee:03"))],
    networks := [(.str "n1", .network (netV4 "n1" "l1")),
                 (.str "n3", .network (netV4 "n3" "l3"))] }

/-- An IPv4 osutils primitive raising an exception that is not a
`NetworkDetailsError` (as a real `osutils` failure would be). -/
def cfg4fail : Cfg4 := fun _ _ _ _ _ _ => .error (.valueError "os primitive failure")

/-- An IPv4 primitive succeeding with `reboot_required = False`. -/
def cfg4okF : Cfg4 := fun _ _ _ _ _ _ => .ok false

/-- An IPv6 primitive succeeding with `reboot_required = False`. -/
def cfg6okF : Cfg6 := fun _ _ _ _ => .ok false

/-! ## Shared lemmas about the dict embedding -/

theorem lookup_insert {κ ν : Type} [DecidableEq κ] (m : List (κ × ν)) (k k' : κ) (v : ν) :
    lookupKV (insertKV m k v) k' = if k' = k then some v else lookupKV m k' := by
  induction m with
  | nil =>
    by_cases h : k' = k
    · subst h; simp [insertKV, lookupKV]
    · have h' : ¬k = k' := fun hh => h hh.symm
      simp [insertKV, lookupKV, h, h']
  | cons kv rest ih =>
    obtain ⟨k0, v0⟩ := kv
    by_cases h0 : k0 = k
    · subst h0
      by_cases h1 : k' = k0
      · subst h1; simp [insertKV, lookupKV]
      · have h1' : ¬k0 = k' := fun hh => h1 hh.symm
        simp [insertKV, lookupKV, h1, h1']
    · by_cases h1 : k' = k
      · subst h1; simp [insertKV, lookupKV, h0, ih]
      · simp [insertKV, lookupKV, h0, h1, ih]

theorem lookup_mem {κ ν : Type} [DecidableEq κ] (m : List (κ × ν)) (k : κ) (v : ν)
    (h : lookupKV m k = some v) : (k, v) ∈ m := by
  induction m with
  | nil => simp [lookupKV] at h
  | cons kv rest ih =>
    obtain ⟨k0, v0⟩ := kv
    by_cases h0 : k0 = k
    · subst h0; simp [lookupKV] at h; simp [h]
    · simp [lookupKV, h0] at h; exact List.mem_cons_of_mem _ (ih h)

/-! ## C4: a required field missing everywhere, with no (or a falsy)
recovery hook, drops the whole record -/

/-- Auxiliary fact about `_get_field`: with every alias absent, a required
field raises `NetworkDetailsError` (leaving the generator untouched). -/
theorem get_field_required_missing (f : Field) (raw : RawData) (g : Gen)
    (hreq : f.required = true)
    (habs : ∀ a ∈ f.name :: f.falias, lookupKV raw a = none) :
    get_field f raw g =
      (.error (.netDetails ("The required field " ++ f.name ++ " is missing.")), g) := by
  have hfs : (f.name :: f.falias).findSome? (fun a => lookupKV raw a) = none := by
    rw [List.findSome?_eq_none_iff]
    exact habs
  simp [get_field, hfs, hreq]

/-- C4.  For every field-spec sequence and raw record: if a required field
is absent under its canonical name and every alias, and it either has no
`on_error` hook or its hook returns falsy, then `_get_fields` returns
nothing for the whole record — the record is dropped, never partially
kept — and the rejection is a regular return, not an exception. -/
theorem c4_required_missing_drops_record
    (fields : List Field) (raw : RawData) (g : Gen) (f : Field)
    (hmem : f ∈ fields) (hreq : f.required = true)
    (habs : ∀ a ∈ f.name :: f.falias, lookupKV raw a = none)
    (hhook : ∀ hook, f.on_error = some hook → ∀ r d, (hook r d).1 = false) :
    (get_fields fields raw g).1 = none := by
  suffices h : ∀ (fs : List Field) (data : RawData) (g : Gen), f ∈ fs →
      (get_fields.go raw fs data g).1 = none by
    exact h fields [] g hmem
  intro fs
  induction fs with
  | nil => intro data g h; simp at h
  | cons fld rest ih =>
    intro data g hmem'
    rcases List.mem_cons.mp hmem' with heq | htail
    · subst heq
      rw [get_fields.go, get_field_required_missing f raw g hreq habs]
      rcases ho : f.on_error with _ | hook
      · simp [ho]
      · have hfalse := hhook hook ho raw data
        simp [ho, hfalse]
    · rw [get_fields.go]
      rcases hgf : get_field fld raw g with ⟨res, g'⟩
      rcases res with e | ⟨n, v⟩
      · simp only [hgf]
        rcases ho : fld.on_error with _ | hook
        · simp [ho]
        · rcases hhk : hook raw data with ⟨b, data'⟩
          cases b
          · simp [ho, hhk]
          · simp only [ho, hhk]
            simpa using ih data' g' htail
      · simp only [hgf]
        simpa using ih (insertKV data n v) g' htail

/-- C4 witness: the base link `NAME` field (required, no alias, no hook) on
the empty record. -/
theorem c4_witness : (get_fields [baseNameField] [] 0).1 = none :=
  c4_required_missing_drops_record [baseNameField] [] 0 baseNameField
    (List.mem_singleton.mpr rfl) rfl
    (by intro a ha; simp [lookupKV])
    (by intro hook h; simp [baseNameField] at h)

/-! ## C5: the MAC-recovery hook compares each adapter name against the
`(field_name, value)` tuple `_get_field` returns, so it never matches -/

/-- C5.  `_on_mac_not_found` never recovers anything: whether or not the
link name resolves, it signals failure and leaves the partial record
untouched, because `addapter_name == name` compares a string with the
2-tuple returned by `_get_field` — in particular on the concrete input the
claim's scenario describes (raw link named `"eth0"`, host adapter
`("eth0", "aa:bb:cc:dd:ee:01")`), where the claim expects success and an
injected MAC. -/
theorem c5_mac_recovery_never_matches :
    (∀ (name_field : Field) (adapters : List (String × String)) (raw output : RawData),
       on_mac_not_found name_field adapters raw output = (false, output)) ∧
    on_mac_not_found httpNameField [("eth0", "aa:bb:cc:dd:ee:01")]
      [(NAME, .str "eth0")] [] = (false, []) := by
  have hall : ∀ (name_field : Field) (adapters : List (String × String))
      (raw output : RawData),
      on_mac_not_found name_field adapters raw output = (false, output) := by
    intro nf adapters raw output
    unfold on_mac_not_found
    rcases h : (get_field nf raw 0).1 with e | name
    · rfl
    · have hpe : ∀ (s f : String) (v : Value), pyEq (.str s) (.pair f v) = false :=
        fun _ _ _ => rfl
      have hn : adapters.find? (fun p => pyEq (.str p.1) (.pair name.1 name.2)) = none :=
        List.find?_eq_none.mpr (fun x _ => by simp [hpe])
      simp [hn]
  exact ⟨hall, hall _ _ _ _⟩

/-! ## C9: a producer default is invoked fresh per call, so two records
lacking an id get distinct generated ids -/

/-- C9.  Resolving the link/network `id` field (producer default) for two
records that both lack an `id` key, with the generator state threaded from
the first resolution into the second, invokes the producer once per call
and yields two distinct generated ids. -/
theorem c9_producer_default_fresh (raw1 raw2 : RawData) (g : Gen)
    (h1 : lookupKV raw1 ID = none) (h2 : lookupKV raw2 ID = none) :
    get_field idField raw1 g = (.ok (ID, genValue g), g + 1) ∧
    get_field idField raw2 (g + 1) = (.ok (ID, genValue (g + 1)), g + 2) ∧
    genValue g ≠ genValue (g + 1) := by
  refine ⟨?_, ?_, ?_⟩
  · simp [get_field, idField, h1]
  · simp [get_field, idField, h2]
  · simp [genValue]

/-- C9 witness at the empty records and generator 0. -/
theorem c9_witness :
    get_field idField [] 0 = (.ok (ID, genValue 0), 1) ∧
    get_field idField [] 1 = (.ok (ID, genValue 1), 2) ∧
    genValue 0 ≠ genValue 1 :=
  c9_producer_default_fresh [] [] 0 rfl rfl

/-! ## C6: a record that resolves but cannot be assembled aborts the whole
digest with a network-details error -/

/-- Lemma: `digest_links` on a list containing a record whose updated dict
the `Link` constructor rejects always aborts with `NetworkDetailsError`,
provided every record's interface digestion itself succeeds. -/
theorem digest_links_aborts (raws : List RawData)
    (hiface : ∀ raw ∈ raws, exOk (ifaceStep raw) = true)
    (hbad : ∃ raw ∈ raws, badLink raw = true) :
    ∃ msg, digest_linksT raws = .error (.netDetails msg) := by
  suffices h : ∀ (rs : List RawData) (acc : List (Value × Link)),
      (∀ raw ∈ rs, exOk (ifaceStep raw) = true) →
      (∃ raw ∈ rs, badLink raw = true) →
      ∃ msg, digest_links rs acc = .error (.netDetails msg) by
    exact h raws [] hiface hbad
  intro rs
  induction rs with
  | nil => intro acc _ hbad'; simp at hbad'
  | cons raw rest ih =>
    intro acc hiface' hbad'
    have hif := hiface' raw (List.mem_cons_self _ _)
    rcases hstep : ifaceStep raw with e | updated
    · rw [hstep] at hif; simp [exOk] at hif
    · simp only [digest_links, hstep]
      rcases hmk : mkLink updated with _ | link
      · simp only [hmk]
        exact ⟨_, rfl⟩
      · simp only [hmk]
        rcases hbad' with ⟨raw0, hmem, hb⟩
        rcases List.mem_cons.mp hmem with heq | htail
        · subst heq
          simp [badLink, hstep, hmk] at hb
        · exact ih _ (fun r hr => hiface' r (List.mem_cons_of_mem _ hr)) ⟨raw0, htail, hb⟩

/-- C6.  A raw link record whose resolved/updated dict does not match the
`Link` constructor, or a raw network record that does not match the
`Network` constructor, makes the respective digest pass raise
`NetworkDetailsError` — aborting the entire digest instead of skipping the
record the way `_get_fields` skips records with missing required fields. -/
theorem c6_malformed_record_aborts_digest :
    (∀ raws : List RawData,
       (∀ raw ∈ raws, exOk (ifaceStep raw) = true) →
       (∃ raw ∈ raws, badLink raw = true) →
       ∃ msg, digest_linksT raws = .error (.netDetails msg)) ∧
    (∀ raws : List RawData,
       (∃ raw ∈ raws, (mkNetwork raw).isNone = true) →
       ∃ msg, digest_networksT raws = .error (.netDetails msg)) := by
  constructor
  · exact digest_links_aborts
  · intro raws hbad
    suffices h : ∀ (rs : List RawData) (ns : List (Value × Network))
        (refs : List (Value × List Value)),
        (∃ raw ∈ rs, (mkNetwork raw).isNone = true) →
        ∃ msg, digest_networks rs ns refs = .error (.netDetails msg) by
      exact h raws [] [] hbad
    intro rs
    induction rs with
    | nil => intro ns refs hbad'; simp at hbad'
    | cons raw rest ih =>
      intro ns refs hbad'
      rw [digest_networks]
      rcases hmk : mkNetwork raw with _ | network
      · exact ⟨_, rfl⟩
      · rcases hbad' with ⟨raw0, hmem, hb⟩
        rcases List.mem_cons.mp hmem with heq | htail
        · subst heq; rw [hmk] at hb; simp at hb
        · exact ih _ _ ⟨raw0, htail, hb⟩

/-- C6 witness: a link record surviving interface digestion but rejected by
the `Link` constructor, and a network record missing required keys; both
digests abort. -/
theorem c6_witness :
    exOk (digest_linksT [c6RawLink]) = false ∧
    exOk (digest_networksT [c6RawNet]) = false := by
  constructor
  · obtain ⟨msg, h⟩ :=
      c6_malformed_record_aborts_digest.1 [c6RawLink] (by decide) (by decide)
    rw [h]; rfl
  · obtain ⟨msg, h⟩ :=
      c6_malformed_record_aborts_digest.2 [c6RawNet] (by decide)
    rw [h]; rfl

/-! ## C10: the reference-graph invariant of `_digest_networks` -/

theorem lookup_appendRef (refs : List (Value × List Value)) (k v k' : Value) :
    lookupKV (appendRef refs k v) k' =
      if k' = k then some ((lookupKV refs k).getD [] ++ [v])
      else lookupKV refs k' := by
  induction refs with
  | nil =>
    by_cases h : k' = k
    · subst h; simp [appendRef, lookupKV]
    · have h' : ¬k = k' := fun hh => h hh.symm
      simp [appendRef, lookupKV, h, h']
  | cons kv rest ih =>
    obtain ⟨k0, xs⟩ := kv
    by_cases h0 : k0 = k
    · subst h0
      by_cases h1 : k' = k0
      · subst h1; simp [appendRef, lookupKV]
      · have h1' : ¬k0 = k' := fun hh => h1 hh.symm
        simp [appendRef, lookupKV, h1, h1']
    · by_cases h1 : k' = k
      · subst h1; simp [appendRef, lookupKV, h0, ih]
      · simp [appendRef, lookupKV, h0, h1, ih]

/-- `digest_networks` succeeds exactly by assembling every record and
folding the two insertions over the assembled networks in order. -/
theorem digest_networks_ok (raws : List RawData) :
    ∀ (ns0 : List (Value × Network)) (refs0 : List (Value × List Value)) out,
      digest_networks raws ns0 refs0 = .ok out →
      ∃ nets, mapO mkNetwork raws = some nets ∧
        out = (nets.foldl (fun a n => insertKV a n.id n) ns0,
               nets.foldl (fun a n => appendRef a n.assigned_to n.id) refs0) := by
  induction raws with
  | nil =>
    intro ns0 refs0 out h
    refine ⟨[], rfl, ?_⟩
    simpa [digest_networks] using h.symm
  | cons raw rest ih =>
    intro ns0 refs0 out h
    rw [digest_networks] at h
    rcases hmk : mkNetwork raw with _ | network
    · rw [hmk] at h; simp at h
    · rw [hmk] at h
      obtain ⟨nets, hmap, hout⟩ := ih _ _ _ h
      exact ⟨network :: nets, by simp [mapO, hmk, hmap], by simpa using hout⟩

theorem foldl_refs_lookup (nets : List Network) :
    ∀ (acc : List (Value × List Value)) (l : Value),
      lookupKV (nets.foldl (fun a n => appendRef a n.assigned_to n.id) acc) l =
        refJoin (lookupKV acc l) (assignedIds nets l) := by
  induction nets with
  | nil =>
    intro acc l
    rcases h : lookupKV acc l with _ | b <;> simp [refJoin, assignedIds, h]
  | cons n rest ih =>
    intro acc l
    rw [List.foldl_cons, ih]
    by_cases h : n.assigned_to = l
    · have hl : lookupKV (appendRef acc n.assigned_to n.id) l =
          some ((lookupKV acc l).getD [] ++ [n.id]) := by
        rw [lookup_appendRef, if_pos h.symm, h]
      rw [hl]
      have hids : assignedIds (n :: rest) l = n.id :: assignedIds rest l := by
        simp [assignedIds, h]
      rw [hids]
      rcases hacc : lookupKV acc l with _ | b <;> simp [refJoin]
    · have hl : lookupKV (appendRef acc n.assigned_to n.id) l = lookupKV acc l := by
        rw [lookup_appendRef, if_neg (fun hh => h hh.symm)]
      have hids : assignedIds (n :: rest) l = assignedIds rest l := by
        simp [assignedIds, h]
      rw [hl, hids]

theorem foldl_ns_lookup (nets : List Network) :
    ∀ (acc : List (Value × Network)) (nid : Value),
      (nets.map Network.id).Nodup →
      lookupKV (nets.foldl (fun a n => insertKV a n.id n) acc) nid =
        (nets.find? (fun n => n.id = nid)).or (lookupKV acc nid) := by
  induction nets with
  | nil => intro acc nid _; simp
  | cons n rest ih =>
    intro acc nid hnodup
    have hmapn : (n.id :: rest.map Network.id).Nodup := by simpa using hnodup
    have hni : n.id ∉ rest.map Network.id := (List.nodup_cons.mp hmapn).1
    have hnd : (rest.map Network.id).Nodup := (List.nodup_cons.mp hmapn).2
    rw [List.foldl_cons, ih _ _ hnd]
    by_cases h : n.id = nid
    · have hres : rest.find? (fun m => m.id = nid) = none := by
        rw [List.find?_eq_none]
        intro m hm hmid
        have hmn : m.id = n.id := by
          have : m.id = nid := by simpa using hmid
          rw [this, h]
        exact hni (hmn ▸ List.mem_map_of_mem Network.id hm)
      have hcons : List.find? (fun m => m.id = nid) (n :: rest) = some n := by
        rw [List.find?_cons_of_pos]
        simpa using h
      rw [hres, hcons, lookup_insert, if_pos h.symm]
      rfl
    · have hcons : List.find? (fun m => m.id = nid) (n :: rest) =
          rest.find? (fun m => m.id = nid) := by
        rw [List.find?_cons_of_neg]
        simpa using h
      rw [hcons, lookup_insert, if_neg (fun hh => h hh.symm)]

/-- C10 counterexample: two raw records with the same network id `"n1"` but
different `assigned_to` links digest without raising, yet `"n1"` sits in
the bucket of `"l1"` while the network stored under `"n1"` has
`assigned_to = "l2"` — the id does not appear exactly in the bucket keyed
by its network's `assigned_to`. -/
theorem c10_counterexample :
    digest_networksT [rawNetN1L1, rawNetN1L2] =
      .ok ([(.str "n1",
             ⟨.str "n1", .str "10.0.0.5", .int 4, .str "255.255.255.0",
              .str "10.0.0.1", .str "10.0.0.255", .vlist [], .str "l2"⟩)],
           [(.str "l1", [.str "n1"]), (.str "l2", [.str "n1"])]) ∧
    (Value.str "l1") ≠ (Value.str "l2") := by
  constructor
  · rfl
  · decide

/-- C10 (amended: the digested records carry pairwise-distinct network
ids).  After `_digest_networks` completes without raising: every network id
in any reference bucket is a key of the networks mapping; a network id
belongs to a bucket exactly when that bucket is keyed by its network's
`assigned_to` (and buckets hold no duplicates); and each bucket lists the
network ids in the order the records were digested. -/
theorem c10_references_invariant (raws : List RawData)
    (ns : List (Value × Network)) (refs : List (Value × List Value))
    (nets : List Network)
    (hok : digest_networksT raws = .ok (ns, refs))
    (hnets : mapO mkNetwork raws = some nets)
    (hnodup : (nets.map Network.id).Nodup) :
    (∀ l bucket, lookupKV refs l = some bucket →
       ∀ nid ∈ bucket, ∃ net, lookupKV ns nid = some net) ∧
    (∀ nid net, lookupKV ns nid = some net →
       ∀ l bucket, lookupKV refs l = some bucket →
         (nid ∈ bucket ↔ l = net.assigned_to)) ∧
    (∀ l bucket, lookupKV refs l = some bucket → bucket.Nodup) ∧
    (∀ l bucket, lookupKV refs l = some bucket → bucket = assignedIds nets l) := by
  obtain ⟨nets', hmap', hout⟩ := digest_networks_ok raws [] [] _ hok
  rw [hnets] at hmap'
  obtain rfl : nets = nets' := by injection hmap'
  have hns : ns = nets.foldl (fun a n => insertKV a n.id n) [] := by
    have := congrArg Prod.fst hout; simpa using this
  have hrefs : refs = nets.foldl (fun a n => appendRef a n.assigned_to n.id) [] := by
    have := congrArg Prod.snd hout; simpa using this
  have hbucket : ∀ l bucket, lookupKV refs l = some bucket →
      bucket = assignedIds nets l := by
    intro l bucket hl
    rw [hrefs, foldl_refs_lookup] at hl
    simp only [lookupKV] at hl
    rcases hids : assignedIds nets l with _ | ⟨i, is⟩
    · rw [hids] at hl; simp [refJoin] at hl
    · rw [hids] at hl
      simpa [refJoin] using hl.symm
  have hnslookup : ∀ nid, lookupKV ns nid =
      (nets.find? (fun n => n.id = nid)).or none := by
    intro nid
    rw [hns, foldl_ns_lookup nets [] nid hnodup]
    rfl
  refine ⟨?_, ?_, ?_, ?_⟩
  · intro l bucket hl nid hnid
    rw [hbucket l bucket hl] at hnid
    simp only [assignedIds, List.mem_map, List.mem_filter] at hnid
    obtain ⟨n, ⟨hmem, hass⟩, hid⟩ := hnid
    have hne : nets.find? (fun m => m.id = nid) ≠ none := by
      intro hnone
      rw [List.find?_eq_none] at hnone
      exact hnone n hmem (by simpa using hid)
    rcases hfind : nets.find? (fun m => m.id = nid) with _ | net
    · exact absurd hfind hne
    · refine ⟨net, ?_⟩
      rw [hnslookup nid, hfind]
      rfl
  · intro nid net hlook l bucket hl
    have hres := hnslookup nid
    rw [hlook] at hres
    rcases hfind : nets.find? (fun m => m.id = nid) with _ | m
    · rw [hfind] at hres; simp [Option.or] at hres
    · rw [hfind] at hres
      have hnm : net = m := by
        simp only [Option.or] at hres
        injection hres
      subst hnm
      have hmem : net ∈ nets := List.mem_of_find?_eq_some hfind
      have hid : net.id = nid := by simpa using List.find?_some hfind
      rw [hbucket l bucket hl]
      simp only [assignedIds, List.mem_map, List.mem_filter]
      constructor
      · rintro ⟨n, ⟨hn, hna⟩, hnid2⟩
        have hfeq : Network.id n = Network.id net := by rw [hnid2, hid]
        have heq : n = net := List.inj_on_of_nodup_map hnodup hn hmem hfeq
        subst heq
        have hna' : n.assigned_to = l := by simpa using hna
        exact hna'.symm
      · intro hla
        exact ⟨net, ⟨hmem, by simp [hla.symm]⟩, hid⟩
  · intro l bucket hl
    rw [hbucket l bucket hl]
    have hsub : List.Sublist
        ((nets.filter (fun n => n.assigned_to = l)).map Network.id)
        (nets.map Network.id) := (List.filter_sublist _).map _
    exact List.Nodup.sublist hsub hnodup
  · intro l bucket hl
    exact hbucket l bucket hl

/-- C10 witness (distinct ids `"n1"`, `"n2"`): id `"n1"` belongs to bucket
`"l1"` — the bucket keyed by its network's `assigned_to` — and not to
bucket `"l2"`. -/
theorem c10_witness :
    (Value.str "n1" ∈ ([Value.str "n1"] : List Value) ↔
       Value.str "l1" = Value.str "l1") ∧
    (Value.str "n1" ∈ ([Value.str "n2"] : List Value) ↔
       Value.str "l2" = Value.str "l1") := by
  have h := c10_references_invariant [rawNetN1L1, rawNetN2L2]
    [(.str "n1", netN1L1), (.str "n2", netN2L2)]
    [(.str "l1", [.str "n1"]), (.str "l2", [.str "n2"])]
    [netN1L1, netN2L2] (by rfl) (by rfl) (by decide)
  exact ⟨h.2.1 (.str "n1") netN1L1 (by decide) (.str "l1") [.str "n1"] (by decide),
         h.2.1 (.str "n1") netN1L1 (by decide) (.str "l2") [.str "n2"] (by decide)⟩

/-! ## C1: the `NetworkDetails` accessors consult the wrong mappings -/

/-- C1.  Running the full pipeline on an empty raw link buffer and one
complete raw network record (id `"n1"`, assigned to `"l1"`): zero links are
digested, yet `get_links()` returns `["n1"]` (the *network* ids),
`get_link("n1")` returns the stored `Network` (not a digested `Link` or
absent), `get_network("n1")` is absent although the networks mapping holds
`"n1"`, and `get_networks("l1")` is absent although the references mapping
holds the bucket `["n1"]` — because `__init__` binds `raw_links` to
`self._assigned_to`, `raw_networks` to `self._links` and `raw_references`
to `self._networks`. -/
theorem c1_accessors_consult_wrong_mappings :
    (get_network_detailsB id stC1).1 = .ok ndC1 ∧
    ndC1.get_links = [.str "n1"] ∧
    ndC1.get_link (.str "n1") = some (.network netN1L1) ∧
    ndC1.get_network (.str "n1") = none ∧
    ndC1.get_networks (.str "l1") = none := by
  refine ⟨rfl, rfl, rfl, rfl, rfl⟩

/-! ## C8: lazy digestion is real, but a populated buffer yields an
exception, not a snapshot -/

/-- Lemma: the dict updated by `_digest_interface` always keeps an
`ip_address` key, which the `Link` constructor rejects. -/
theorem mkLink_after_iface (raw raw' : RawData) (h : ifaceStep raw = .ok raw') :
    mkLink raw' = none := by
  have hip : ∃ v, lookupKV raw' IP_ADDRESS = some v := by
    cases h1 : lookupKV raw IP_ADDRESS
    case none => simp [ifaceStep, h1] at h
    case some ip =>
      cases h2 : lookupKV raw NETMASK
      case none => simp [ifaceStep, h1, h2] at h
      case some nm =>
        cases h3 : digest_interfaceV ip nm
        case none => simp [ifaceStep, h1, h2, h3] at h
        case some info =>
          simp only [ifaceStep, h1, h2, h3] at h
          have hraw' : insertKV (insertKV (insertKV (insertKV raw
              BROADCAST (.str info.broadcast))
              NETMASK (.str info.netmask))
              IP_ADDRESS (.str info.ip_address))
              VERSION (.int info.version) = raw' := by
            injection h
          rw [← hraw', lookup_insert, if_neg (by decide), lookup_insert,
            if_pos rfl]
          exact ⟨_, rfl⟩
  obtain ⟨v, hv⟩ := hip
  have hmem := lookup_mem _ _ _ hv
  unfold mkLink
  rw [if_neg]
  intro hall
  have hin : IP_ADDRESS ∈ linkFieldNames :=
    of_decide_eq_true (List.all_eq_true.mp hall (IP_ADDRESS, v) hmem)
  exact absurd hin (by decide)

/-- C8 counterexample: with both raw buffers populated, the lazy guard does
skip `_digest()` (flag `false`), but the call raises `NetworkDetailsError`
instead of producing a snapshot — the claim's "still producing exactly one
NetworkDetails snapshot per call" fails. -/
theorem c8_counterexample :
    get_network_detailsB id stC8 =
      (.error (.netDetails "Invalid raw link provied."), false) := by
  rfl

/-- C8 (amended).  `_digest()` is invoked exactly when an internal raw
buffer is empty; with both buffers populated the call is independent of the
digest hook (no re-digestion); but such a call then always raises (the link
digestion rejects every buffered record), so a snapshot is produced only
when digestion succeeds — never for a populated link buffer. -/
theorem c8_lazy_memoized (st : BuilderState) (f : BuilderState → BuilderState) :
    ((get_network_detailsB f st).2 = true ↔ (st.links = [] ∨ st.networks = [])) ∧
    (st.links ≠ [] → st.networks ≠ [] →
       get_network_detailsB f st = get_network_detailsB id st) ∧
    (st.links ≠ [] → st.networks ≠ [] →
       ∃ e, (get_network_detailsB f st).1 = .error e) := by
  have hsnd : ∀ (g : BuilderState → BuilderState),
      (get_network_detailsB g st).2 = (st.links.isEmpty || st.networks.isEmpty) := by
    intro g
    simp only [get_network_detailsB]
    split
    · rfl
    · split <;> rfl
  refine ⟨?_, ?_, ?_⟩
  · rw [hsnd]
    simp [List.isEmpty_iff]
  · intro hl hn
    have h1 : st.links.isEmpty = false := by simpa using hl
    have h2 : st.networks.isEmpty = false := by simpa using hn
    simp only [get_network_detailsB, h1, h2, Bool.or_self]
    rfl
  · intro hl hn
    have h1 : st.links.isEmpty = false := by simpa using hl
    have h2 : st.networks.isEmpty = false := by simpa using hn
    obtain ⟨raw, rest, hst⟩ : ∃ raw rest, st.links = raw :: rest := by
      cases hc : st.links with
      | nil => exact absurd hc hl
      | cons a as => exact ⟨a, as, rfl⟩
    have hderr : ∃ e, digest_linksT st.links = .error e := by
      rw [hst]
      rcases hstep : ifaceStep raw with e | raw'
      · exact ⟨e, by simp [digest_linksT, digest_links, hstep]⟩
      · have hmk := mkLink_after_iface raw raw' hstep
        exact ⟨.netDetails "Invalid raw link provied.",
          by simp [digest_linksT, digest_links, hstep, hmk]⟩
    obtain ⟨e, he⟩ := hderr
    refine ⟨e, ?_⟩
    simp only [get_network_detailsB, h1, h2, Bool.or_self,
      show (if false = true then f st else st) = st from rfl, he]

/-- C8 witness: at the populated state, the lazy-guard equivalence holds
and the produced value is an exception, not a snapshot. -/
theorem c8_witness :
    ((get_network_detailsB id stC8).2 = true ↔
       (stC8.links = [] ∨ stC8.networks = [])) ∧
    exOk (get_network_detailsB id stC8).1 = false := by
  have h := c8_lazy_memoized stC8 id
  refine ⟨h.1, ?_⟩
  obtain ⟨e, he⟩ := h.2.2 (by decide) (by decide)
  rw [he]
  rfl

/-! ## C3: the pruning machinery of the HTTP `_digest` cannot run -/

/-- C3.  Two concrete digests of well-formed `network_data`:
(1) no raw links and one fully resolvable raw network referencing the
absent link `"eth0"` — the claim says this must not crash, the network must
survive into the networks mapping, and `"eth0"`'s absence must only affect
pruning; instead `self._invalid_links.pop(assigned_to, None)` raises
`AttributeError`, because `_digest` rebound `_invalid_links` to
`self._links.keys()` (a `dict_keys` view with no `pop`).
(2) one fully resolvable raw link and no raw networks — the digest dies
even earlier, on `link[VERSION]` (`KeyError`: the link field set never
produces a `version` key).  The resolved networks are, in addition, never
written into `self._networks` at all. -/
theorem c3_pruning_machinery_crashes :
    http_digest [] { links := some [], networks := some [httpNetC3] } 0 =
      .error (.attributeError "dict_keys object has no attribute pop") ∧
    http_digest [] { links := some [httpLinkC3], networks := some [] } 0 =
      .error (.keyError "version") := by
  exact ⟨rfl, rfl⟩

/-! ## C2: per-link failure isolation in `NetworkConfigPlugin.execute` -/

theorem orAll_shift (s : List Bool) : ∀ a : Bool,
    s.foldl (fun x y => x || y) a = (a || s.foldl (fun x y => x || y) false) := by
  induction s with
  | nil => intro a; simp
  | cons x rest ih =>
    intro a
    rw [List.foldl_cons, ih (a || x), List.foldl_cons, ih (false || x)]
    simp [Bool.or_assoc]

theorem orAll_cons (b : Bool) (s : List Bool) : orAll (b :: s) = (b || orAll s) := by
  unfold orAll
  rw [List.foldl_cons, orAll_shift]
  simp

/-- C2 counterexample: one `phy` link whose IPv4 osutils primitive raises
an exception that is not a `NetworkDetailsError`.  The claim says every
exception raised while invoking the OS configure primitive is caught and
the call still returns the accumulated `reboot_required`; instead the
exception propagates out of `execute` — zero links succeed and the call
raises. -/
theorem c2_counterexample :
    execute cfg4fail cfg6okF (some ndOnePhy) =
      .error (.valueError "os primitive failure") := by
  rfl

/-- C2 (amended: only `NetworkDetailsError` failures — unsupported link
types, and OS-primitive failures of that class — are caught; other
exceptions propagate).  For a snapshot whose link ids all resolve to `Link`
entries and whose per-link outcomes are successes or `NetworkDetailsError`
failures: every failure is caught and the loop continues with the next
link; `reboot_required` is the OR over the successfully configured links;
`configured` records whether at least one link succeeded; with zero
successes the call still returns the accumulated `false` instead of
raising. -/
theorem c2_per_link_failures_isolated (cfg4 : Cfg4) (cfg6 : Cfg6) (nd : NetworkDetails)
    (hwf : ∀ lid ∈ nd.get_links, isLinkEntry (nd.get_link lid) = true)
    (herr : ∀ lid ∈ nd.get_links, okOrNetDetails (linkOutcome cfg4 cfg6 nd lid) = true) :
    executeAux cfg4 cfg6 nd =
      .ok (orAll (successes cfg4 cfg6 nd), !(successes cfg4 cfg6 nd).isEmpty) ∧
    execute cfg4 cfg6 (some nd) = .ok (.done, orAll (successes cfg4 cfg6 nd)) := by
  have hgo : ∀ (ids : List Value) (r c : Bool),
      (∀ lid ∈ ids, isLinkEntry (nd.get_link lid) = true) →
      (∀ lid ∈ ids, okOrNetDetails (linkOutcome cfg4 cfg6 nd lid) = true) →
      executeAux.go cfg4 cfg6 nd ids r c =
        .ok (r || orAll (ids.filterMap
               (fun lid => exToOption (linkOutcome cfg4 cfg6 nd lid))),
             c || !(ids.filterMap
               (fun lid => exToOption (linkOutcome cfg4 cfg6 nd lid))).isEmpty) := by
    intro ids
    induction ids with
    | nil => intro r c _ _; simp [executeAux.go, orAll]
    | cons lid rest ih =>
      intro r c hwf' herr'
      have hwfh := hwf' lid (List.mem_cons_self _ _)
      have herrh := herr' lid (List.mem_cons_self _ _)
      have hwft := fun l hl => hwf' l (List.mem_cons_of_mem _ hl)
      have herrt := fun l hl => herr' l (List.mem_cons_of_mem _ hl)
      rcases ho : configure_interface cfg4 cfg6 nd (nd.get_link lid) with e | b
      · have hoL : linkOutcome cfg4 cfg6 nd lid = .error e := ho
        rw [hoL] at herrh
        have hnet : e.isNetDetails = true := herrh
        rcases e with m | k | m | m | m <;> simp [PyErr.isNetDetails] at hnet
        case netDetails =>
          obtain ⟨l, hlink⟩ : ∃ l, nd.get_link lid = some (.link l) := by
            rcases hle : nd.get_link lid with _ | entry
            · rw [hle] at hwfh; simp [isLinkEntry] at hwfh
            · rcases entry with l | n | xs
              · exact ⟨l, rfl⟩
              · rw [hle] at hwfh; simp [isLinkEntry] at hwfh
              · rw [hle] at hwfh; simp [isLinkEntry] at hwfh
          simp only [executeAux.go, ho]
          rw [hlink]
          simp only [pyAttr]
          rw [ih r c hwft herrt]
          simp [List.filterMap_cons, hoL, exToOption]
      · have hoL : linkOutcome cfg4 cfg6 nd lid = .ok b := ho
        simp only [executeAux.go, ho]
        rw [ih (r || b) true hwft herrt]
        simp only [List.filterMap_cons, hoL, exToOption]
        rw [orAll_cons]
        simp [Bool.or_assoc]
  have hmain := hgo nd.get_links false false hwf herr
  have hexecAux : executeAux cfg4 cfg6 nd =
      .ok (orAll (successes cfg4 cfg6 nd), !(successes cfg4 cfg6 nd).isEmpty) := by
    rw [executeAux, hmain]
    simp [successes]
  refine ⟨hexecAux, ?_⟩
  rw [execute, hexecAux]

/-- C2 witness: the spec scenario — three links, one failing with the
caught error class, two succeeding with `reboot_required = False` — gives
`reboot_required = False`, `configured = True`, without raising. -/
theorem c2_witness :
    executeAux cfg4okF cfg6okF ndThreeLinks = .ok (false, true) ∧
    execute cfg4okF cfg6okF (some ndThreeLinks) = .ok (.done, false) := by
  have h := c2_per_link_failures_isolated cfg4okF cfg6okF ndThreeLinks
    (by decide) (by decide)
  constructor
  · rw [h.1]; rfl
  · rw [h.2]; rfl

/-! ## C7: `_digest_interface` computes the interface arithmetic exactly -/

theorem lor_low (a h : Nat) :
    (a ||| (2 ^ h - 1)) = a / 2 ^ h * 2 ^ h + (2 ^ h - 1) := by
  have hlt : 2 ^ h - 1 < 2 ^ h := Nat.sub_lt (Nat.two_pow_pos h) Nat.one_pos
  apply Nat.eq_of_testBit_eq
  intro i
  rw [Nat.testBit_lor, Nat.testBit_two_pow_sub_one,
    show a / 2 ^ h * 2 ^ h = 2 ^ h * (a / 2 ^ h) from Nat.mul_comm _ _,
    Nat.testBit_mul_pow_two_add _ hlt i]
  by_cases hi : i < h
  · simp [hi, Nat.testBit_two_pow_sub_one]
  · have hd : decide (i < h) = false := by simp [hi]
    rw [if_neg hi, hd, Bool.or_false]
    rw [Nat.testBit_to_div_mod, Nat.testBit_to_div_mod, Nat.div_div_eq_div_mul,
      ← pow_add]
    have hh : h + (i - h) = i := by omega
    rw [hh]

theorem and_mask (a p h : Nat) (ha : a < 2 ^ (p + h)) :
    (a &&& ((2 ^ p - 1) * 2 ^ h)) = a / 2 ^ h * 2 ^ h := by
  apply Nat.eq_of_testBit_eq
  intro i
  rw [Nat.testBit_and,
    show (2 ^ p - 1) * 2 ^ h = 2 ^ h * (2 ^ p - 1) from Nat.mul_comm _ _,
    show a / 2 ^ h * 2 ^ h = 2 ^ h * (a / 2 ^ h) from Nat.mul_comm _ _,
    Nat.testBit_mul_pow_two, Nat.testBit_mul_pow_two,
    Nat.testBit_two_pow_sub_one]
  by_cases hi : i ≥ h
  · have hd : decide (i ≥ h) = true := by simp [hi]
    rw [hd, Bool.true_and, Bool.true_and]
    have htb : (a / 2 ^ h).testBit (i - h) = a.testBit i := by
      rw [Nat.testBit_to_div_mod, Nat.testBit_to_div_mod,
        Nat.div_div_eq_div_mul, ← pow_add]
      have hh : h + (i - h) = i := by omega
      rw [hh]
    rw [htb]
    by_cases hip : i - h < p
    · simp [hip]
    · have hbig : a.testBit i = false := by
        apply Nat.testBit_lt_two_pow
        calc a < 2 ^ (p + h) := ha
          _ ≤ 2 ^ i := Nat.pow_le_pow_right (by norm_num) (by omega)
      simp [hip, hbig]
  · have hd : decide (i ≥ h) = false := by simp [hi]
    rw [hd]
    simp

theorem hexDigit_lt (c : Char) (d : Nat) (h : hexDigit? c = some d) : d < 16 := by
  unfold hexDigit? at h
  split_ifs at h with hv
  injection h with h'
  omega

theorem parseHexCore_lt :
    ∀ (cs : List Char) (acc v : Nat),
      parseHexCore cs acc = some v → v < (acc + 1) * 16 ^ cs.length := by
  intro cs
  induction cs with
  | nil =>
    intro acc v h
    simp only [parseHexCore] at h
    injection h with h'
    subst h'
    simp
  | cons c rest ih =>
    intro acc v h
    rcases hd : hexDigit? c with _ | d
    · simp [parseHexCore, hd] at h
    · simp only [parseHexCore, hd] at h
      have hdlt := hexDigit_lt c d hd
      have hrec := ih (acc * 16 + d) v h
      have hlen : (c :: rest).length = rest.length + 1 := rfl
      rw [hlen]
      calc v < (acc * 16 + d + 1) * 16 ^ rest.length := hrec
        _ ≤ ((acc + 1) * 16) * 16 ^ rest.length := by
            apply Nat.mul_le_mul_right
            omega
        _ = (acc + 1) * 16 ^ (rest.length + 1) := by ring

theorem assembleBase_lt (B : Nat) :
    ∀ (gs : List Nat) (acc : Nat), (∀ g ∈ gs, g < B) →
      assembleBase B gs acc < (acc + 1) * B ^ gs.length := by
  intro gs
  induction gs with
  | nil =>
    intro acc _
    simp [assembleBase]
  | cons g rest ih =>
    intro acc hb
    have hg := hb g (List.mem_cons_self _ _)
    have ht := fun x hx => hb x (List.mem_cons_of_mem _ hx)
    have hlen : (g :: rest).length = rest.length + 1 := rfl
    rw [hlen]
    simp only [assembleBase]
    calc assembleBase B rest (acc * B + g)
        < (acc * B + g + 1) * B ^ rest.length := ih _ ht
      _ ≤ ((acc + 1) * B) * B ^ rest.length := by
          apply Nat.mul_le_mul_right
          have hx : (acc + 1) * B = acc * B + B := by ring
          omega
      _ = (acc + 1) * B ^ (rest.length + 1) := by ring

theorem parseGroup_lt (cs : List Char) (g : Nat) (h : parseGroup cs = some g) :
    g < 65536 := by
  unfold parseGroup at h
  split_ifs at h with hc
  have hb := parseHexCore_lt cs 0 g h
  have hlen : cs.length ≤ 4 := by
    rcases not_or.mp hc with ⟨_, h4⟩
    omega
  calc g < (0 + 1) * 16 ^ cs.length := hb
    _ ≤ 1 * 16 ^ 4 := by
        apply Nat.mul_le_mul_left
        exact Nat.pow_le_pow_right (by norm_num) hlen
    _ = 65536 := by norm_num

theorem mapO_forall {A B : Type} (f : A → Option B) :
    ∀ (l : List A) (bs : List B), mapO f l = some bs →
      ∀ b ∈ bs, ∃ a ∈ l, f a = some b := by
  intro l
  induction l with
  | nil =>
    intro bs h b hb
    simp only [mapO] at h
    injection h with h'
    subst h'
    simp at hb
  | cons a rest ih =>
    intro bs h b hb
    rcases hf : f a with _ | b0
    · simp [mapO, hf] at h
    · rcases hm : mapO f rest with _ | bs0
      · simp [mapO, hf, hm] at h
      · simp only [mapO, hf, hm] at h
        injection h with h'
        subst h'
        rcases List.mem_cons.mp hb with heq | htail
        · subst heq
          exact ⟨a, List.mem_cons_self _ _, hf⟩
        · obtain ⟨a0, hmem, hfa⟩ := ih bs0 hm b htail
          exact ⟨a0, List.mem_cons_of_mem _ hmem, hfa⟩

theorem mapO_length {A B : Type} (f : A → Option B) :
    ∀ (l : List A) (bs : List B), mapO f l = some bs → bs.length = l.length := by
  intro l
  induction l with
  | nil =>
    intro bs h
    simp only [mapO] at h
    injection h with h'
    subst h'
    rfl
  | cons a rest ih =>
    intro bs h
    rcases hf : f a with _ | b0
    · simp [mapO, hf] at h
    · rcases hm : mapO f rest with _ | bs0
      · simp [mapO, hf, hm] at h
      · simp only [mapO, hf, hm] at h
        injection h with h'
        subst h'
        simp [ih bs0 hm]

theorem parseIPv4_lt (cs : List Char) (v : Nat) (h : parseIPv4 cs = some v) :
    v < 2 ^ 32 := by
  unfold parseIPv4 at h
  rcases hm : mapO parseDec (splitOnChar '.' cs) with _ | parts
  · simp only [hm] at h
    exact Option.noConfusion h
  · simp only [hm] at h
    split_ifs at h with hc
    · obtain ⟨hlen, hall⟩ := hc
      injection h with h'
      subst h'
      have hb := assembleBase_lt 256 parts 0 ?_
      · calc assembleBase 256 parts 0 < (0 + 1) * 256 ^ parts.length := hb
          _ = 256 ^ 4 := by rw [hlen]; ring
          _ = 2 ^ 32 := by norm_num
      · intro g hg
        have hgle := List.all_eq_true.mp hall g hg
        simp at hgle
        omega

theorem v6Side_forall (s : List Char) (gs : List Nat)
    (h : parseIPv6.v6Side s = some gs) : ∀ g ∈ gs, g < 65536 := by
  unfold parseIPv6.v6Side at h
  split_ifs at h with hs
  · injection h with h'
    subst h'
    simp
  · intro g hg
    obtain ⟨cs0, _, hpg⟩ := mapO_forall parseGroup _ gs h g hg
    exact parseGroup_lt cs0 g hpg

theorem parseIPv6_lt (cs : List Char) (v : Nat) (h : parseIPv6 cs = some v) :
    v < 2 ^ 128 := by
  unfold parseIPv6 at h
  rcases hdc : findDoubleColon cs with _ | ⟨l, r⟩
  · simp only [hdc] at h
    rcases hm : mapO parseGroup (splitOnChar ':' cs) with _ | gs
    · simp only [hm] at h
      exact Option.noConfusion h
    · simp only [hm] at h
      split_ifs at h with hlen
      · injection h with h'
        subst h'
        have hb := assembleBase_lt 65536 gs 0 ?_
        · calc assembleBase 65536 gs 0 < (0 + 1) * 65536 ^ gs.length := hb
            _ = 65536 ^ 8 := by rw [hlen]; ring
            _ = 2 ^ 128 := by norm_num
        · intro g hg
          obtain ⟨cs0, _, hpg⟩ := mapO_forall parseGroup _ gs hm g hg
          exact parseGroup_lt cs0 g hpg
  · simp only [hdc] at h
    rcases hl : parseIPv6.v6Side l with _ | lg
    · simp only [hl] at h
      exact Option.noConfusion h
    · rcases hr : parseIPv6.v6Side r with _ | rg
      · simp only [hl, hr] at h
        exact Option.noConfusion h
      · simp only [hl, hr] at h
        split_ifs at h with hle
        · injection h with h'
          subst h'
          have hb := assembleBase_lt 65536
            (lg ++ List.replicate (8 - lg.length - rg.length) 0 ++ rg) 0 ?_
          · have hlen : (lg ++ List.replicate (8 - lg.length - rg.length) 0 ++
                rg).length = 8 := by
              simp [List.length_append, List.length_replicate]
              omega
            calc assembleBase 65536 _ 0
                < (0 + 1) * 65536 ^ (lg ++ List.replicate
                    (8 - lg.length - rg.length) 0 ++ rg).length := hb
              _ = 65536 ^ 8 := by rw [hlen]; ring
              _ = 2 ^ 128 := by norm_num
          · intro g hg
            rcases List.mem_append.mp hg with hg1 | hgr
            · rcases List.mem_append.mp hg1 with hgl | hg0
              · exact v6Side_forall l lg hl g hgl
              · have : g = 0 := List.eq_of_mem_replicate hg0
                omega
            · exact v6Side_forall r rg hr g hgr

theorem netmaskPrefix4_le (m p : Nat) (h : netmaskPrefix4 m = some p) : p ≤ 32 := by
  unfold netmaskPrefix4 at h
  have hmem := List.mem_of_find?_eq_some h
  have := List.mem_range.mp hmem
  omega

theorem ip_interface_bounds (s : String) (ver addr pre : Nat)
    (h : ip_interface s = some (ver, addr, pre)) :
    (ver = 4 ∧ addr < 2 ^ 32 ∧ pre ≤ 32) ∨
    (ver = 6 ∧ addr < 2 ^ 128 ∧ pre ≤ 128) := by
  unfold ip_interface at h
  rcases hs : splitOnChar '/' s.data with _ | ⟨a, _ | ⟨m, _ | _⟩⟩ <;>
    simp only [hs] at h
  · exact Option.noConfusion h
  · rcases h4 : parseIPv4 a with _ | v <;> simp only [h4] at h
    · rcases h6 : parseIPv6 a with _ | v <;> simp only [h6] at h
      · exact Option.noConfusion h
      · injection h with h'
        obtain ⟨rfl, rfl, rfl⟩ : 6 = ver ∧ v = addr ∧ 128 = pre := by
          simpa [Prod.ext_iff] using h'
        exact Or.inr ⟨rfl, parseIPv6_lt a v h6, le_refl _⟩
    · injection h with h'
      obtain ⟨rfl, rfl, rfl⟩ : 4 = ver ∧ v = addr ∧ 32 = pre := by
        simpa [Prod.ext_iff] using h'
      exact Or.inl ⟨rfl, parseIPv4_lt a v h4, le_refl _⟩
  · rcases h4 : parseIPv4 a with _ | v <;> simp only [h4] at h
    · rcases h6 : parseIPv6 a with _ | v <;> simp only [h6] at h
      · exact Option.noConfusion h
      · rcases hp : parseDec m with _ | p0 <;> simp only [hp] at h
        · exact Option.noConfusion h
        · split_ifs at h with hple
          injection h with h'
          obtain ⟨rfl, rfl, rfl⟩ : 6 = ver ∧ v = addr ∧ p0 = pre := by
            simpa [Prod.ext_iff] using h'
          exact Or.inr ⟨rfl, parseIPv6_lt a v h6, hple⟩
    · rcases hp : parseDec m with _ | p0 <;> simp only [hp] at h
      · rcases hm4 : parseIPv4 m with _ | mv <;> simp only [hm4] at h
        · exact Option.noConfusion h
        · rcases hnp : netmaskPrefix4 mv with _ | p1 <;>
            simp only [hnp, Option.map_none', Option.map_some'] at h
          · exact Option.noConfusion h
          · injection h with h'
            obtain ⟨rfl, rfl, rfl⟩ : 4 = ver ∧ v = addr ∧ p1 = pre := by
              simpa [Prod.ext_iff] using h'
            exact Or.inl ⟨rfl, parseIPv4_lt a v h4, netmaskPrefix4_le mv p1 hnp⟩
      · split_ifs at h with hple
        injection h with h'
        obtain ⟨rfl, rfl, rfl⟩ : 4 = ver ∧ v = addr ∧ p0 = pre := by
          simpa [Prod.ext_iff] using h'
        exact Or.inl ⟨rfl, parseIPv4_lt a v h4, hple⟩
  · exact Option.noConfusion h

theorem iface_arith (addr pre bits : Nat) (ha : addr < 2 ^ bits) (hp : pre ≤ bits) :
    ((addr &&& (2 ^ bits - 2 ^ (bits - pre))) ||| (2 ^ (bits - pre) - 1)) =
      addr / 2 ^ (bits - pre) * 2 ^ (bits - pre) + (2 ^ (bits - pre) - 1) ∧
    2 ^ bits - 2 ^ (bits - pre) = (2 ^ pre - 1) * 2 ^ (bits - pre) := by
  have hmask : (2 : Nat) ^ bits - 2 ^ (bits - pre) = (2 ^ pre - 1) * 2 ^ (bits - pre) := by
    have hp2 : (2 : Nat) ^ pre * 2 ^ (bits - pre) = 2 ^ bits := by
      rw [← pow_add]
      congr 1
      omega
    rw [Nat.sub_mul, one_mul, hp2]
  have ha' : addr < 2 ^ (pre + (bits - pre)) := by
    have he : pre + (bits - pre) = bits := by omega
    rw [he]
    exact ha
  refine ⟨?_, hmask⟩
  rw [hmask, and_mask addr pre (bits - pre) ha', lor_low]
  have hq : addr / 2 ^ (bits - pre) * 2 ^ (bits - pre) / 2 ^ (bits - pre) =
      addr / 2 ^ (bits - pre) := Nat.mul_div_cancel _ (Nat.two_pow_pos _)
  rw [hq]

theorem ifaceOf_closed_form (ver addr pre : Nat) (hv : ver = 4 ∨ ver = 6)
    (ha : addr < 2 ^ bitsOf ver) (hp : pre ≤ bitsOf ver) :
    ifaceOf ver addr pre =
      ⟨fmtOf ver (addr / 2 ^ (bitsOf ver - pre) * 2 ^ (bitsOf ver - pre) +
         (2 ^ (bitsOf ver - pre) - 1)),
       fmtOf ver ((2 ^ pre - 1) * 2 ^ (bitsOf ver - pre)),
       fmtOf ver addr, Int.ofNat ver⟩ := by
  rcases hv with rfl | rfl
  · have ha32 : addr < 2 ^ 32 := ha
    have hp32 : pre ≤ 32 := hp
    obtain ⟨hor, hmask⟩ := iface_arith addr pre 32 ha32 hp32
    show (⟨fmtIPv4 ((addr &&& (2 ^ 32 - 2 ^ (32 - pre))) ||| (2 ^ (32 - pre) - 1)),
          fmtIPv4 (2 ^ 32 - 2 ^ (32 - pre)), fmtIPv4 addr, Int.ofNat 4⟩ : IfaceInfo) = _
    rw [hor, hmask]
    rfl
  · have ha128 : addr < 2 ^ 128 := ha
    have hp128 : pre ≤ 128 := hp
    obtain ⟨hor, hmask⟩ := iface_arith addr pre 128 ha128 hp128
    show (⟨fmtIPv6 ((addr &&& (2 ^ 128 - 2 ^ (128 - pre))) ||| (2 ^ (128 - pre) - 1)),
          fmtIPv6 (2 ^ 128 - 2 ^ (128 - pre)), fmtIPv6 addr, Int.ofNat 6⟩ : IfaceInfo) = _
    rw [hor, hmask]
    rfl

theorem digest_interface_parsed (s : String) (m : Option String) (ver addr pre : Nat)
    (h : ip_interface (combineIface s m) = some (ver, addr, pre)) :
    digest_interface s m = some (ifaceOf ver addr pre) := by
  unfold combineIface at h
  simp only [digest_interface]
  rw [h]

/-- C7.  `_digest_interface` computes exactly the interface arithmetic:
on the claim's concrete instance it returns broadcast `10.0.0.255`,
netmask `255.255.255.0`, address `10.0.0.5`, version 4; and in general,
whenever `ipaddress.ip_interface` parses the combined `ip/netmask` text as
`(version, address, prefixlen)` — IPv4 or IPv6, prefix or dotted-netmask
notation — the returned version is the parsed 4 or 6, the returned address
is the normalized parsed address, the returned netmask renders `prefixlen`
one-bits followed by host zero-bits, and the returned broadcast renders the
greatest address agreeing with the parsed address above the host bits (the
network broadcast address). -/
theorem c7_digest_interface_exact :
    (digest_interface "10.0.0.5" (some "255.255.255.0") =
       some ⟨"10.0.0.255", "255.255.255.0", "10.0.0.5", 4⟩) ∧
    (∀ (s : String) (m : Option String) (ver addr pre : Nat),
       ip_interface (combineIface s m) = some (ver, addr, pre) →
       (ver = 4 ∨ ver = 6) ∧ addr < 2 ^ bitsOf ver ∧ pre ≤ bitsOf ver ∧
       digest_interface s m =
         some ⟨fmtOf ver (addr / 2 ^ (bitsOf ver - pre) * 2 ^ (bitsOf ver - pre) +
                 (2 ^ (bitsOf ver - pre) - 1)),
               fmtOf ver ((2 ^ pre - 1) * 2 ^ (bitsOf ver - pre)),
               fmtOf ver addr, Int.ofNat ver⟩ ∧
       (∀ x, x < 2 ^ bitsOf ver →
          x / 2 ^ (bitsOf ver - pre) = addr / 2 ^ (bitsOf ver - pre) →
          x ≤ addr / 2 ^ (bitsOf ver - pre) * 2 ^ (bitsOf ver - pre) +
              (2 ^ (bitsOf ver - pre) - 1))) := by
  constructor
  · decide
  · intro s m ver addr pre h
    have hb := ip_interface_bounds _ _ _ _ h
    have hv : ver = 4 ∨ ver = 6 := by
      rcases hb with ⟨h1, _, _⟩ | ⟨h1, _, _⟩
      · exact Or.inl h1
      · exact Or.inr h1
    have ha : addr < 2 ^ bitsOf ver := by
      rcases hb with ⟨h1, h2, _⟩ | ⟨h1, h2, _⟩ <;> subst h1 <;> exact h2
    have hp : pre ≤ bitsOf ver := by
      rcases hb with ⟨h1, _, h3⟩ | ⟨h1, _, h3⟩ <;> subst h1 <;> exact h3
    refine ⟨hv, ha, hp, ?_, ?_⟩
    · rw [digest_interface_parsed s m ver addr pre h,
        ifaceOf_closed_form ver addr pre hv ha hp]
    · intro x hx hdiv
      have ht : 0 < 2 ^ (bitsOf ver - pre) := Nat.two_pow_pos _
      have hdm := (Nat.div_add_mod x (2 ^ (bitsOf ver - pre))).symm
      have hmod : x % 2 ^ (bitsOf ver - pre) < 2 ^ (bitsOf ver - pre) :=
        Nat.mod_lt _ ht
      calc x = 2 ^ (bitsOf ver - pre) * (x / 2 ^ (bitsOf ver - pre)) +
            x % 2 ^ (bitsOf ver - pre) := hdm
        _ = 2 ^ (bitsOf ver - pre) * (addr / 2 ^ (bitsOf ver - pre)) +
            x % 2 ^ (bitsOf ver - pre) := by rw [hdiv]
        _ ≤ 2 ^ (bitsOf ver - pre) * (addr / 2 ^ (bitsOf ver - pre)) +
            (2 ^ (bitsOf ver - pre) - 1) := by
              apply Nat.add_le_add_left
              omega
        _ = addr / 2 ^ (bitsOf ver - pre) * 2 ^ (bitsOf ver - pre) +
            (2 ^ (bitsOf ver - pre) - 1) := by rw [Nat.mul_comm]

/-- C7 witness: a v4 instance in address/prefix notation and a v6 instance
with a prefix netmask, via the general theorem. -/
theorem c7_witness :
    digest_interface "192.168.1.10/24" none =
      some ⟨"192.168.1.255", "255.255.255.0", "192.168.1.10", 4⟩ ∧
    digest_interface "::1" (some "64") =
      some ⟨"::ffff:ffff:ffff:ffff", "ffff:ffff:ffff:ffff::", "::1", 6⟩ := by
  constructor
  · have h := (c7_digest_interface_exact.2 "192.168.1.10/24" none 4 3232235786 24
      (by decide)).2.2.2.1
    rw [h]
    decide
  · have h := (c7_digest_interface_exact.2 "::1" (some "64") 6 1 64
      (by decide)).2.2.2.1
    rw [h]
    decide

end CloudbaseInit
